import Mathlib

/-!
Verification of the `du-simple` disk-usage reporter (src/du.c, src/du.h)
against its natural-language specification.

The embedding below is a shallow model of the C sources:

* `DynamicArray`, `InitDynamicArray`, `SearchInode`, `InsertInode` embed the
  inode registry (du.c:198-292, du.h:13-17).  Allocation sizes are tracked in
  bytes (`allocBytes`) so that the byte-level behaviour of `malloc`/`realloc`
  is visible; the element values live in the functional `data` list.
* `dfs` and `dfsEntries` embed the recursive traversal (du.c:101-182); the
  `readdir` loop body becomes one step of `dfsEntries` per directory entry.
* A filesystem is an `FSNode` tree: the result of `lstat`/`opendir`/`readdir`
  on each path.  `statFail e` is a path whose `lstat` fails with errno `e+1`
  (errno is nonzero after a failing call); a directory whose `opendir` fails
  carries `openErr = some e` meaning errno `e+1`.  Resolving the constructed
  child path yields the entry's own node (the model identifies a directory
  entry with the object its constructed path resolves to).
* stdout is the list of `PrintDiskUsage` records `(usage_kb, path)` in call
  order; stderr is the list of `Diag` values, each carrying exactly the data
  its `fprintf`/`perror` format interpolates.
* `realloc` nondeterminism is an oracle `allocOk : Nat → Bool` deciding
  whether a reallocation to a given byte count succeeds.  `malloc` in
  `InitDynamicArray` is assumed to succeed (its failure aborts before any
  traversal starts, du.c:66-70).
* C machine integers: `st_blocks`, totals and inode numbers are nonnegative
  and far below 2^63 in any feasible filesystem, so they are modelled as
  `Nat`; the only place a signedness check matters is the `snprintf` return
  value, modelled as an `Int` (du.c:138).
-/

set_option maxRecDepth 20000

namespace Du

/-- kPathMax from du.h:21 — size in bytes of each per-frame path buffer. -/
def kPathMax : Nat := 512

/-- sizeof(ino_t) on the LP64 target platform. -/
def inoSize : Nat := 8

/-- ENOMEM, the errno left by a failing realloc. -/
def eNOMEM : Nat := 12

/-- DynamicArray from du.h:13-17.  `size` and `len` are the struct fields
(capacity in elements, number of stored elements); `allocBytes` is the number
of bytes actually allocated for `data`, and `data` lists the stored ino_t
values in insertion order. -/
structure DynamicArray where
  size : Nat
  len : Nat
  allocBytes : Nat
  data : List Nat
deriving DecidableEq

/-- InitDynamicArray (du.c:198-214): fresh array, `malloc(size * type_size)`
bytes of backing storage, length 0. -/
def InitDynamicArray (size type_size : Nat) : DynamicArray :=
  { size := size, len := 0, allocBytes := size * type_size, data := [] }

/-- SearchInode (du.c:246-261): linear scan of the first `len` stored
identifiers; returns whether `ino` is present. -/
def SearchInode (da : DynamicArray) (ino : Nat) : Bool :=
  (da.data.take da.len).contains ino

/-- Result of one InsertInode call: `ok` is the C return value (`true` for 0,
`false` for -1), `da` the registry afterwards, and `inBounds` whether the
append write `inodes[da->len] = ino` stayed inside the allocated storage. -/
structure InsertOut where
  ok : Bool
  da : DynamicArray
  inBounds : Bool
deriving DecidableEq

/-- InsertInode (du.c:276-292).  When the array is full it calls
`realloc(da->data, da->size * 2)` — requesting `size * 2` BYTES — and on
success sets `size *= 2`; then it writes at element index `len`, which
occupies bytes `len * inoSize` to `(len+1) * inoSize - 1` of the backing
storage. -/
def InsertInode (allocOk : Nat → Bool) (da : DynamicArray) (ino : Nat) :
    InsertOut :=
  if da.size = da.len then
    if allocOk (da.size * 2) then
      let da1 : DynamicArray :=
        { da with allocBytes := da.size * 2, size := da.size * 2 }
      { ok := true,
        da := { da1 with data := da1.data ++ [ino], len := da1.len + 1 },
        inBounds := (da1.len + 1) * inoSize ≤ da1.allocBytes }
    else
      { ok := false, da := da, inBounds := true }
  else
    { ok := true,
      da := { da with data := da.data ++ [ino], len := da.len + 1 },
      inBounds := (da.len + 1) * inoSize ≤ da.allocBytes }

/-- Kind of a non-directory filesystem object (`S_ISDIR` is false). -/
inductive LeafKind where
  | reg
  | symlink
  | other
deriving DecidableEq

/-- The lstat metadata the traversal reads: st_ino, st_nlink, st_blocks
(512-byte units). -/
structure FMeta where
  ino : Nat
  nlink : Nat
  blocks : Nat
deriving DecidableEq

/-- One filesystem object as the traversal observes it.  `statFail e`: lstat
on this path fails with errno `e + 1`.  A `dir` with `openErr = some e` stats
fine but `opendir` fails with errno `e + 1`; its `children` are the entries
`readdir` yields, in order, excluding none (entries named "." and ".." may
appear and are skipped by the traversal itself, du.c:133-135). -/
inductive FSNode where
  | file (kind : LeafKind) (m : FMeta)
  | dir (m : FMeta) (openErr : Option Nat) (children : List (String × FSNode))
  | statFail (e : Nat)

/-- One stderr diagnostic, tagged by emitting site and carrying exactly what
the format string interpolates. -/
inductive Diag where
  | statRootFail (rootpath : String)
  | snprintfFail
  | statChildFail (errnoVal : Nat)
  | insertFail (ino : Nat)
  | openDirFail (rootpath : String)
deriving DecidableEq

/-- Whether the diagnostic's message text contains the failing path. -/
def Diag.namesPath : Diag → Bool
  | .statRootFail _ => true
  | .openDirFail _ => true
  | _ => false

/-- Whether the diagnostic's message text contains the underlying system
error (a `strerror(errno)` rendering). -/
def Diag.namesSysError : Diag → Bool
  | .statChildFail _ => true
  | .snprintfFail => true
  | _ => false

/-- Everything one `dfs` call produces: its `blkcnt_t` return value, the
registry afterwards, the `*error` out-parameter (0 = no error, else errno),
the stdout records and the stderr diagnostics it emitted, in order. -/
structure DfsOut where
  total : Nat
  da : DynamicArray
  err : Nat
  out : List (Nat × String)
  diags : List Diag
deriving DecidableEq

/-- Character-level truncation; C truncates the path buffer at the byte
level, which coincides for the ASCII paths modelled here. -/
def strTake (s : String) (n : Nat) : String :=
  String.mk (s.data.take n)

/-- Content of the 512-byte `pathname` buffer after
`snprintf(pathname, kPathMax, "%s/%s", rootpath, name)` (du.c:137-138):
the joined path truncated to at most `kPathMax - 1` characters. -/
def mkChildPath (root name : String) : String :=
  strTake (root ++ "/" ++ name) (kPathMax - 1)

/-- Return value of that `snprintf` call: the length the full formatted
string would have, regardless of truncation — never negative. -/
def snprintfRet (root name : String) : Int :=
  ((root ++ "/" ++ name).length : Int)

mutual

/-- dfs (du.c:101-182) on the object `node` that `rootpath` resolves to.
`dfs` is only ever entered with `*error == 0` (du, and the loop, check the
flag after every call), so the error flag starts at 0 here. -/
def dfs (allocOk : Nat → Bool) (rootpath : String) (node : FSNode)
    (seen : DynamicArray) (include_files : Bool) : DfsOut :=
  match node with
  | .statFail e =>
      { total := 0, da := seen, err := e + 1, out := [],
        diags := [.statRootFail rootpath] }
  | .file _ m =>
      { total := m.blocks / 2, da := seen, err := 0,
        out := [(m.blocks / 2, rootpath)], diags := [] }
  | .dir m oe cs =>
      match oe with
      | some e =>
          { total := 0, da := seen, err := e + 1, out := [],
            diags := [.openDirFail rootpath] }
      | none =>
          let r := dfsEntries allocOk rootpath cs seen include_files
          let total := m.blocks / 2 + r.total
          if r.err = 0 then
            { total := total, da := r.da, err := 0,
              out := r.out ++ [(total, rootpath)], diags := r.diags }
          else
            { total := total, da := r.da, err := r.err, out := r.out,
              diags := r.diags }

/-- The readdir loop of dfs (du.c:131-175), one list element per entry;
`total` is the usage accumulated by the remaining iterations. -/
def dfsEntries (allocOk : Nat → Bool) (rootpath : String)
    (entries : List (String × FSNode)) (seen : DynamicArray)
    (include_files : Bool) : DfsOut :=
  match entries with
  | [] =>
      { total := 0, da := seen, err := 0, out := [], diags := [] }
  | (name, child) :: rest =>
      if name = "." ∨ name = ".." then
        dfsEntries allocOk rootpath rest seen include_files
      else if snprintfRet rootpath name < 0 then
        -- Unreachable: snprintf returns the would-be length, never negative,
        -- so truncation is NOT detected here (du.c:138-142).  The errno
        -- value stored would be whatever errno held; it is immaterial.
        { total := 0, da := seen, err := 1, out := [],
          diags := [.snprintfFail] }
      else
        let pathname := mkChildPath rootpath name
        match child with
        | .statFail e =>
            { total := 0, da := seen, err := e + 1, out := [],
              diags := [.statChildFail (e + 1)] }
        | .dir cm coe ccs =>
            let r := dfs allocOk pathname (.dir cm coe ccs) seen include_files
            if r.err = 0 then
              let rr := dfsEntries allocOk rootpath rest r.da include_files
              { total := r.total + rr.total, da := rr.da, err := rr.err,
                out := r.out ++ rr.out, diags := r.diags ++ rr.diags }
            else
              { total := r.total, da := r.da, err := r.err, out := r.out,
                diags := r.diags }
        | .file k m =>
            let usage := m.blocks / 2
            match k with
            | .reg =>
                if 1 < m.nlink then
                  if SearchInode seen m.ino then
                    dfsEntries allocOk rootpath rest seen include_files
                  else
                    let ins := InsertInode allocOk seen m.ino
                    if ins.ok then
                      let printed : List (Nat × String) :=
                        if include_files then [(usage, pathname)] else []
                      let rr := dfsEntries allocOk rootpath rest ins.da
                          include_files
                      { total := usage + rr.total, da := rr.da, err := rr.err,
                        out := printed ++ rr.out, diags := rr.diags }
                    else
                      { total := 0, da := ins.da, err := eNOMEM, out := [],
                        diags := [.insertFail m.ino] }
                else
                  let printed : List (Nat × String) :=
                    if include_files then [(usage, pathname)] else []
                  let rr := dfsEntries allocOk rootpath rest seen include_files
                  { total := usage + rr.total, da := rr.da, err := rr.err,
                    out := printed ++ rr.out, diags := rr.diags }
            | _ =>
                -- Symlinks and other non-regular, non-directory entries hit
                -- neither branch of du.c:151-170: nothing is added to total.
                let printed : List (Nat × String) :=
                  if include_files then [(usage, pathname)] else []
                let rr := dfsEntries allocOk rootpath rest seen include_files
                { total := rr.total, da := rr.da, err := rr.err,
                  out := printed ++ rr.out, diags := rr.diags }

end

/-- Result of the top-level du call: its int return value plus the streams. -/
structure DuOut where
  ret : Int
  out : List (Nat × String)
  diags : List Diag
deriving DecidableEq

/-- kInitSize from du.c:64. -/
def kInitSize : Nat := 8

/-- du (du.c:62-80): create the registry with capacity 8 elements, run dfs,
free the registry, return -1 iff the shared error flag was set. -/
def du (allocOk : Nat → Bool) (rootpath : String) (node : FSNode)
    (include_files : Bool) : DuOut :=
  let seen := InitDynamicArray kInitSize inoSize
  let r := dfs allocOk rootpath node seen include_files
  { ret := if r.err ≠ 0 then -1 else 0, out := r.out, diags := r.diags }

/-- Registry well-formedness: the struct's `len` field counts exactly the
stored elements.  `InitDynamicArray` establishes it, `InsertInode` keeps it. -/
def WF (da : DynamicArray) : Prop :=
  da.len = da.data.length

instance (da : DynamicArray) : Decidable (WF da) := by
  unfold WF; infer_instance

mutual

/-- Every lstat and opendir in the tree succeeds. -/
def errorFree : FSNode → Bool
  | .file _ _ => true
  | .statFail _ => false
  | .dir _ oe cs => oe.isNone && errorFreeEntries cs

def errorFreeEntries : List (String × FSNode) → Bool
  | [] => true
  | (_, t) :: r => errorFree t && errorFreeEntries r

end

mutual

/-- Every regular file in the tree has link count at most 1 (no hard links). -/
def noHardLinks : FSNode → Bool
  | .file .reg m => Nat.ble m.nlink 1
  | .file _ _ => true
  | .statFail _ => true
  | .dir _ _ cs => noHardLinksEntries cs

def noHardLinksEntries : List (String × FSNode) → Bool
  | [] => true
  | (_, t) :: r => noHardLinks t && noHardLinksEntries r

end

mutual

/-- No directory entry in the tree is named "." or ".." (readdir pseudo
entries, which the traversal skips). -/
def cleanNames : FSNode → Bool
  | .dir _ _ cs => cleanNamesEntries cs
  | _ => true

def cleanNamesEntries : List (String × FSNode) → Bool
  | [] => true
  | (n, t) :: r => !(n == "." || n == "..") && cleanNames t && cleanNamesEntries r

end

mutual

/-- Usage the code actually accumulates for a subtree: each directory's own
blocks plus its entries' contributions, where regular files contribute their
blocks and symlinks/other non-regular entries contribute nothing. -/
def countedSum : FSNode → Nat
  | .file .reg m => m.blocks / 2
  | .file _ _ => 0
  | .statFail _ => 0
  | .dir m _ cs => m.blocks / 2 + countedSumEntries cs

def countedSumEntries : List (String × FSNode) → Nat
  | [] => 0
  | (_, t) :: r => countedSum t + countedSumEntries r

end

mutual

/-- Follows the spec's words (§8, first testable property): the sum of every
entry's own allocated-block usage in the tree — every kind of entry included. -/
def sumAll : FSNode → Nat
  | .file _ m => m.blocks / 2
  | .statFail _ => 0
  | .dir m _ cs => m.blocks / 2 + sumAllEntries cs

def sumAllEntries : List (String × FSNode) → Nat
  | [] => 0
  | (_, t) :: r => sumAll t + sumAllEntries r

end

mutual

/-- Constructed paths of the directories of a tree rooted at path `p`,
root directory included, "." and ".." entries skipped as the traversal does. -/
def dirPaths (p : String) : FSNode → List String
  | .dir _ _ cs => p :: dirPathsEntries p cs
  | _ => []

def dirPathsEntries (p : String) : List (String × FSNode) → List String
  | [] => []
  | (n, t) :: r =>
      (if n = "." ∨ n = ".." then [] else dirPaths (mkChildPath p n) t) ++
        dirPathsEntries p r

end

mutual

/-- Follows the spec's words (§4.2 and §8): the paths that receive a record
in files-enabled mode, in post-order, threading the set of already-seen
inode identifiers — one path per directory and per non-duplicate
non-directory entry; duplicate hard links (regular, link count > 1, inode
already seen) receive none.  Returns the emitted paths and the seen-set
after the subtree. -/
def specEmits (p : String) :
    FSNode → List Nat → List String × List Nat
  | .file _ _, seen => ([p], seen)
  | .statFail _, seen => ([], seen)
  | .dir _ _ cs, seen =>
      let r := specEmitsEntries p cs seen
      (r.1 ++ [p], r.2)

def specEmitsEntries (p : String) :
    List (String × FSNode) → List Nat → List String × List Nat
  | [], seen => ([], seen)
  | (n, t) :: rest, seen =>
      if n = "." ∨ n = ".." then specEmitsEntries p rest seen
      else
        match t with
        | .statFail _ => ([], seen)
        | .dir cm coe ccs =>
            let r1 := specEmits (mkChildPath p n) (.dir cm coe ccs) seen
            let r2 := specEmitsEntries p rest r1.2
            (r1.1 ++ r2.1, r2.2)
        | .file .reg m =>
            if 1 < m.nlink ∧ m.ino ∈ seen then specEmitsEntries p rest seen
            else
              let seen1 := if 1 < m.nlink then seen ++ [m.ino] else seen
              let r2 := specEmitsEntries p rest seen1
              (mkChildPath p n :: r2.1, r2.2)
        | .file _ _ =>
            let r2 := specEmitsEntries p rest seen
            (mkChildPath p n :: r2.1, r2.2)

end

/-- Usage dfs reports for a traversal root: a non-directory root reports its
own blocks; a directory root reports its own blocks plus its entries'
counted contributions. -/
def rootUsage : FSNode → Nat
  | .file _ m => m.blocks / 2
  | .statFail _ => 0
  | .dir m _ cs => m.blocks / 2 + countedSumEntries cs

/-- Iterate InsertInode over a list of inode numbers, recording the registry
at the end and whether every append write stayed inside the allocation. -/
def insertRun (allocOk : Nat → Bool) (da : DynamicArray) :
    List Nat → DynamicArray × Bool
  | [] => (da, true)
  | i :: r =>
      let o := InsertInode allocOk da i
      let rec2 := insertRun allocOk o.da r
      (rec2.1, o.inBounds && rec2.2)

/-! Helper lemmas (shared; none of these is a claim theorem). -/

mutual

/-- Simultaneous induction over a filesystem node and an entry list. -/
theorem nodeInd {P : FSNode → Prop} {Q : List (String × FSNode) → Prop}
    (hfile : ∀ k m, P (.file k m)) (hstat : ∀ e, P (.statFail e))
    (hdir : ∀ m oe cs, Q cs → P (.dir m oe cs)) (hnil : Q [])
    (hcons : ∀ n t r, P t → Q r → Q ((n, t) :: r)) :
    ∀ t, P t
  | .file k m => hfile k m
  | .statFail e => hstat e
  | .dir m oe cs => hdir m oe cs (entriesInd hfile hstat hdir hnil hcons cs)

/-- Entry-list side of the simultaneous induction. -/
theorem entriesInd {P : FSNode → Prop} {Q : List (String × FSNode) → Prop}
    (hfile : ∀ k m, P (.file k m)) (hstat : ∀ e, P (.statFail e))
    (hdir : ∀ m oe cs, Q cs → P (.dir m oe cs)) (hnil : Q [])
    (hcons : ∀ n t r, P t → Q r → Q ((n, t) :: r)) :
    ∀ l, Q l
  | [] => hnil
  | (n, t) :: r =>
      hcons n t r (nodeInd hfile hstat hdir hnil hcons t)
        (entriesInd hfile hstat hdir hnil hcons r)

end

theorem snprintfRet_nonneg (root name : String) :
    ¬ snprintfRet root name < 0 := by
  simp only [snprintfRet, Int.not_lt]
  exact_mod_cast Nat.zero_le _

theorem WF_init (size type_size : Nat) : WF (InitDynamicArray size type_size) := by
  simp [WF, InitDynamicArray]

theorem SearchInode_eq_mem (da : DynamicArray) (ino : Nat) (h : WF da) :
    SearchInode da ino = da.data.contains ino := by
  unfold SearchInode
  rw [WF] at h
  rw [h, List.take_length]

theorem InsertInode_ok_data (allocOk : Nat → Bool) (da : DynamicArray)
    (ino : Nat) (h : (InsertInode allocOk da ino).ok = true) :
    (InsertInode allocOk da ino).da.data = da.data ++ [ino] ∧
      (WF da → WF (InsertInode allocOk da ino).da) := by
  unfold InsertInode at h ⊢
  split_ifs at h ⊢ with h1 h2
  · refine ⟨rfl, ?_⟩
    intro hwf
    simp only [WF] at hwf ⊢
    simp [hwf]
  · refine ⟨rfl, ?_⟩
    intro hwf
    simp only [WF] at hwf ⊢
    simp [hwf]

theorem InsertInode_fail_da (allocOk : Nat → Bool) (da : DynamicArray)
    (ino : Nat) (h : (InsertInode allocOk da ino).ok = false) :
    (InsertInode allocOk da ino).da = da := by
  unfold InsertInode at h ⊢
  split_ifs at h ⊢ with h1 h2
  · rfl

/-- Registry extension: dfs and its entry loop only ever append to the
registry's stored identifiers. -/
theorem data_ext (allocOk : Nat → Bool) :
    (∀ t : FSNode, ∀ (p : String) (da : DynamicArray) (incl : Bool),
      ∃ tl, (dfs allocOk p t da incl).da.data = da.data ++ tl) ∧
    (∀ l : List (String × FSNode), ∀ (p : String) (da : DynamicArray)
      (incl : Bool),
      ∃ tl, (dfsEntries allocOk p l da incl).da.data = da.data ++ tl) := by
  have hfile : ∀ k m, ∀ (p : String) (da : DynamicArray) (incl : Bool),
      ∃ tl, (dfs allocOk p (.file k m) da incl).da.data = da.data ++ tl := by
    intro k m p da incl
    exact ⟨[], by simp [dfs]⟩
  have hstat : ∀ e, ∀ (p : String) (da : DynamicArray) (incl : Bool),
      ∃ tl, (dfs allocOk p (.statFail e) da incl).da.data = da.data ++ tl := by
    intro e p da incl
    exact ⟨[], by simp [dfs]⟩
  have hdir : ∀ m oe cs,
      (∀ (p : String) (da : DynamicArray) (incl : Bool),
        ∃ tl, (dfsEntries allocOk p cs da incl).da.data = da.data ++ tl) →
      ∀ (p : String) (da : DynamicArray) (incl : Bool),
      ∃ tl, (dfs allocOk p (.dir m oe cs) da incl).da.data = da.data ++ tl := by
    intro m oe cs hq p da incl
    obtain ⟨tl, htl⟩ := hq p da incl
    cases oe with
    | none =>
        refine ⟨tl, ?_⟩
        simp only [dfs]
        split
        · simpa using htl
        · simpa using htl
    | some e => exact ⟨[], by simp [dfs]⟩
  have hnil : ∀ (p : String) (da : DynamicArray) (incl : Bool),
      ∃ tl, (dfsEntries allocOk p [] da incl).da.data = da.data ++ tl := by
    intro p da incl
    exact ⟨[], by simp [dfsEntries]⟩
  have hcons : ∀ (n : String) (t : FSNode) (r : List (String × FSNode)),
      (∀ (p : String) (da : DynamicArray) (incl : Bool),
        ∃ tl, (dfs allocOk p t da incl).da.data = da.data ++ tl) →
      (∀ (p : String) (da : DynamicArray) (incl : Bool),
        ∃ tl, (dfsEntries allocOk p r da incl).da.data = da.data ++ tl) →
      ∀ (p : String) (da : DynamicArray) (incl : Bool),
      ∃ tl, (dfsEntries allocOk p ((n, t) :: r) da incl).da.data =
        da.data ++ tl := by
    intro n t r hp hq p da incl
    have hsn := snprintfRet_nonneg p n
    cases t with
    | statFail e =>
        by_cases hname : n = "." ∨ n = ".."
        · simpa [dfsEntries, hname] using hq p da incl
        · exact ⟨[], by simp [dfsEntries, hname, hsn]⟩
    | dir cm coe ccs =>
        by_cases hname : n = "." ∨ n = ".."
        · simpa [dfsEntries, hname] using hq p da incl
        · obtain ⟨tl1, h1⟩ := hp (mkChildPath p n) da incl
          by_cases herr :
              (dfs allocOk (mkChildPath p n) (.dir cm coe ccs) da incl).err = 0
          · obtain ⟨tl2, h2⟩ := hq p
              ((dfs allocOk (mkChildPath p n) (.dir cm coe ccs) da incl).da) incl
            refine ⟨tl1 ++ tl2, ?_⟩
            simp [dfsEntries, hname, hsn, herr, h2, h1]
          · refine ⟨tl1, ?_⟩
            simp [dfsEntries, hname, hsn, herr, h1]
    | file k m =>
        cases k with
        | reg =>
            by_cases hname : n = "." ∨ n = ".."
            · simpa [dfsEntries, hname] using hq p da incl
            · by_cases hl : 1 < m.nlink
              · by_cases hs : SearchInode da m.ino
                · simpa [dfsEntries, hname, hsn, hl, hs] using hq p da incl
                · by_cases hok : (InsertInode allocOk da m.ino).ok = true
                  · have hins := InsertInode_ok_data allocOk da m.ino hok
                    obtain ⟨tl2, h2⟩ := hq p (InsertInode allocOk da m.ino).da incl
                    refine ⟨m.ino :: tl2, ?_⟩
                    simp [dfsEntries, hname, hsn, hl, hs, hok, h2, hins.1]
                  · have hda := InsertInode_fail_da allocOk da m.ino
                      (by simpa using hok)
                    refine ⟨[], ?_⟩
                    simp [dfsEntries, hname, hsn, hl, hs, hok, hda]
              · simpa [dfsEntries, hname, hsn, hl] using hq p da incl
        | symlink =>
            by_cases hname : n = "." ∨ n = ".."
            · simpa [dfsEntries, hname] using hq p da incl
            · simpa [dfsEntries, hname, hsn] using hq p da incl
        | other =>
            by_cases hname : n = "." ∨ n = ".."
            · simpa [dfsEntries, hname] using hq p da incl
            · simpa [dfsEntries, hname, hsn] using hq p da incl
  exact ⟨nodeInd hfile hstat hdir hnil hcons, entriesInd hfile hstat hdir hnil hcons⟩

/-- Mode independence: the include-files flag influences only the stdout
records; total, registry, error flag and stderr diagnostics agree between
the two modes at every call. -/
theorem mode_indep (allocOk : Nat → Bool) :
    (∀ t : FSNode, ∀ (p : String) (da : DynamicArray),
      (dfs allocOk p t da true).total = (dfs allocOk p t da false).total ∧
      (dfs allocOk p t da true).da = (dfs allocOk p t da false).da ∧
      (dfs allocOk p t da true).err = (dfs allocOk p t da false).err ∧
      (dfs allocOk p t da true).diags = (dfs allocOk p t da false).diags) ∧
    (∀ l : List (String × FSNode), ∀ (p : String) (da : DynamicArray),
      (dfsEntries allocOk p l da true).total =
        (dfsEntries allocOk p l da false).total ∧
      (dfsEntries allocOk p l da true).da =
        (dfsEntries allocOk p l da false).da ∧
      (dfsEntries allocOk p l da true).err =
        (dfsEntries allocOk p l da false).err ∧
      (dfsEntries allocOk p l da true).diags =
        (dfsEntries allocOk p l da false).diags) := by
  have hfile : ∀ k m, ∀ (p : String) (da : DynamicArray),
      (dfs allocOk p (.file k m) da true).total =
        (dfs allocOk p (.file k m) da false).total ∧
      (dfs allocOk p (.file k m) da true).da =
        (dfs allocOk p (.file k m) da false).da ∧
      (dfs allocOk p (.file k m) da true).err =
        (dfs allocOk p (.file k m) da false).err ∧
      (dfs allocOk p (.file k m) da true).diags =
        (dfs allocOk p (.file k m) da false).diags := by
    intro k m p da
    simp [dfs]
  have hstat : ∀ e, ∀ (p : String) (da : DynamicArray),
      (dfs allocOk p (.statFail e) da true).total =
        (dfs allocOk p (.statFail e) da false).total ∧
      (dfs allocOk p (.statFail e) da true).da =
        (dfs allocOk p (.statFail e) da false).da ∧
      (dfs allocOk p (.statFail e) da true).err =
        (dfs allocOk p (.statFail e) da false).err ∧
      (dfs allocOk p (.statFail e) da true).diags =
        (dfs allocOk p (.statFail e) da false).diags := by
    intro e p da
    simp [dfs]
  have hdir : ∀ m oe cs,
      (∀ (p : String) (da : DynamicArray),
        (dfsEntries allocOk p cs da true).total =
          (dfsEntries allocOk p cs da false).total ∧
        (dfsEntries allocOk p cs da true).da =
          (dfsEntries allocOk p cs da false).da ∧
        (dfsEntries allocOk p cs da true).err =
          (dfsEntries allocOk p cs da false).err ∧
        (dfsEntries allocOk p cs da true).diags =
          (dfsEntries allocOk p cs da false).diags) →
      ∀ (p : String) (da : DynamicArray),
      (dfs allocOk p (.dir m oe cs) da true).total =
        (dfs allocOk p (.dir m oe cs) da false).total ∧
      (dfs allocOk p (.dir m oe cs) da true).da =
        (dfs allocOk p (.dir m oe cs) da false).da ∧
      (dfs allocOk p (.dir m oe cs) da true).err =
        (dfs allocOk p (.dir m oe cs) da false).err ∧
      (dfs allocOk p (.dir m oe cs) da true).diags =
        (dfs allocOk p (.dir m oe cs) da false).diags := by
    intro m oe cs hq p da
    obtain ⟨h1, h2, h3, h4⟩ := hq p da
    cases oe with
    | none =>
        by_cases herr : (dfsEntries allocOk p cs da true).err = 0
        · simp [dfs, herr, h3 ▸ herr, h1, h2, h3, h4]
        · simp [dfs, herr, h3 ▸ herr, h1, h2, h3, h4]
    | some e => simp [dfs]
  have hnil : ∀ (p : String) (da : DynamicArray),
      (dfsEntries allocOk p [] da true).total =
        (dfsEntries allocOk p [] da false).total ∧
      (dfsEntries allocOk p [] da true).da =
        (dfsEntries allocOk p [] da false).da ∧
      (dfsEntries allocOk p [] da true).err =
        (dfsEntries allocOk p [] da false).err ∧
      (dfsEntries allocOk p [] da true).diags =
        (dfsEntries allocOk p [] da false).diags := by
    intro p da
    simp [dfsEntries]
  have hcons : ∀ (n : String) (t : FSNode) (r : List (String × FSNode)),
      (∀ (p : String) (da : DynamicArray),
        (dfs allocOk p t da true).total = (dfs allocOk p t da false).total ∧
        (dfs allocOk p t da true).da = (dfs allocOk p t da false).da ∧
        (dfs allocOk p t da true).err = (dfs allocOk p t da false).err ∧
        (dfs allocOk p t da true).diags = (dfs allocOk p t da false).diags) →
      (∀ (p : String) (da : DynamicArray),
        (dfsEntries allocOk p r da true).total =
          (dfsEntries allocOk p r da false).total ∧
        (dfsEntries allocOk p r da true).da =
          (dfsEntries allocOk p r da false).da ∧
        (dfsEntries allocOk p r da true).err =
          (dfsEntries allocOk p r da false).err ∧
        (dfsEntries allocOk p r da true).diags =
          (dfsEntries allocOk p r da false).diags) →
      ∀ (p : String) (da : DynamicArray),
      (dfsEntries allocOk p ((n, t) :: r) da true).total =
        (dfsEntries allocOk p ((n, t) :: r) da false).total ∧
      (dfsEntries allocOk p ((n, t) :: r) da true).da =
        (dfsEntries allocOk p ((n, t) :: r) da false).da ∧
      (dfsEntries allocOk p ((n, t) :: r) da true).err =
        (dfsEntries allocOk p ((n, t) :: r) da false).err ∧
      (dfsEntries allocOk p ((n, t) :: r) da true).diags =
        (dfsEntries allocOk p ((n, t) :: r) da false).diags := by
    intro n t r hp hq p da
    have hsn := snprintfRet_nonneg p n
    cases t with
    | statFail e =>
        by_cases hname : n = "." ∨ n = ".."
        · simpa [dfsEntries, hname] using hq p da
        · simp [dfsEntries, hname, hsn]
    | dir cm coe ccs =>
        by_cases hname : n = "." ∨ n = ".."
        · simpa [dfsEntries, hname] using hq p da
        · obtain ⟨ht1, hd1, he1, hg1⟩ := hp (mkChildPath p n) da
          by_cases herr :
              (dfs allocOk (mkChildPath p n) (.dir cm coe ccs) da true).err = 0
          · obtain ⟨ht2, hd2, he2, hg2⟩ := hq p
              ((dfs allocOk (mkChildPath p n) (.dir cm coe ccs) da false).da)
            simp [dfsEntries, hname, hsn, herr, he1 ▸ herr, ht1, hd1, he1,
              hg1, ht2, hd2, he2, hg2]
          · simp [dfsEntries, hname, hsn, herr, he1 ▸ herr, ht1, hd1, he1, hg1]
    | file k m =>
        cases k with
        | reg =>
            by_cases hname : n = "." ∨ n = ".."
            · simpa [dfsEntries, hname] using hq p da
            · by_cases hl : 1 < m.nlink
              · by_cases hs : SearchInode da m.ino
                · simpa [dfsEntries, hname, hsn, hl, hs] using hq p da
                · by_cases hok : (InsertInode allocOk da m.ino).ok = true
                  · obtain ⟨ht2, hd2, he2, hg2⟩ := hq p
                      (InsertInode allocOk da m.ino).da
                    simp [dfsEntries, hname, hsn, hl, hs, hok, ht2, hd2,
                      he2, hg2]
                  · simp [dfsEntries, hname, hsn, hl, hs, hok]
              · obtain ⟨ht2, hd2, he2, hg2⟩ := hq p da
                simp [dfsEntries, hname, hsn, hl, ht2, hd2, he2, hg2]
        | symlink =>
            by_cases hname : n = "." ∨ n = ".."
            · simpa [dfsEntries, hname] using hq p da
            · obtain ⟨ht2, hd2, he2, hg2⟩ := hq p da
              simp [dfsEntries, hname, hsn, ht2, hd2, he2, hg2]
        | other =>
            by_cases hname : n = "." ∨ n = ".."
            · simpa [dfsEntries, hname] using hq p da
            · obtain ⟨ht2, hd2, he2, hg2⟩ := hq p da
              simp [dfsEntries, hname, hsn, ht2, hd2, he2, hg2]
  exact ⟨nodeInd hfile hstat hdir hnil hcons, entriesInd hfile hstat hdir hnil hcons⟩

/-- Loop composition: when the first stretch of entries is processed without
error, processing the concatenation equals processing the first stretch and
then the second from the reached registry state, with totals added and both
output streams concatenated in order. -/
theorem dfsEntries_append (allocOk : Nat → Bool) (p : String) (incl : Bool) :
    ∀ (xs : List (String × FSNode)) (ys : List (String × FSNode))
      (da : DynamicArray),
      (dfsEntries allocOk p xs da incl).err = 0 →
      dfsEntries allocOk p (xs ++ ys) da incl =
        { total := (dfsEntries allocOk p xs da incl).total +
            (dfsEntries allocOk p ys (dfsEntries allocOk p xs da incl).da
              incl).total,
          da := (dfsEntries allocOk p ys (dfsEntries allocOk p xs da incl).da
            incl).da,
          err := (dfsEntries allocOk p ys (dfsEntries allocOk p xs da incl).da
            incl).err,
          out := (dfsEntries allocOk p xs da incl).out ++
            (dfsEntries allocOk p ys (dfsEntries allocOk p xs da incl).da
              incl).out,
          diags := (dfsEntries allocOk p xs da incl).diags ++
            (dfsEntries allocOk p ys (dfsEntries allocOk p xs da incl).da
              incl).diags } := by
  intro xs
  induction xs with
  | nil =>
      intro ys da _
      simp [dfsEntries]
  | cons e xs ih =>
      obtain ⟨n, t⟩ := e
      intro ys da h0
      have hsn := snprintfRet_nonneg p n
      cases t with
      | statFail e =>
          by_cases hname : n = "." ∨ n = ".."
          · have h0r : (dfsEntries allocOk p xs da incl).err = 0 := by
              simpa [dfsEntries, hname] using h0
            simpa [dfsEntries, hname] using ih ys da h0r
          · exact absurd h0 (by simp [dfsEntries, hname, hsn])
      | dir cm coe ccs =>
          by_cases hname : n = "." ∨ n = ".."
          · have h0r : (dfsEntries allocOk p xs da incl).err = 0 := by
              simpa [dfsEntries, hname] using h0
            simpa [dfsEntries, hname] using ih ys da h0r
          · by_cases herr :
                (dfs allocOk (mkChildPath p n) (.dir cm coe ccs) da incl).err = 0
            · have h0r : (dfsEntries allocOk p xs
                  (dfs allocOk (mkChildPath p n) (.dir cm coe ccs) da incl).da
                  incl).err = 0 := by
                simpa [dfsEntries, hname, hsn, herr] using h0
              have := ih ys
                (dfs allocOk (mkChildPath p n) (.dir cm coe ccs) da incl).da h0r
              simp [dfsEntries, hname, hsn, herr, this, Nat.add_assoc,
                List.append_assoc]
            · exact absurd h0 (by simp [dfsEntries, hname, hsn, herr])
      | file k m =>
          cases k with
          | reg =>
              by_cases hname : n = "." ∨ n = ".."
              · have h0r : (dfsEntries allocOk p xs da incl).err = 0 := by
                  simpa [dfsEntries, hname] using h0
                simpa [dfsEntries, hname] using ih ys da h0r
              · by_cases hl : 1 < m.nlink
                · by_cases hs : SearchInode da m.ino
                  · have h0r : (dfsEntries allocOk p xs da incl).err = 0 := by
                      simpa [dfsEntries, hname, hsn, hl, hs] using h0
                    simpa [dfsEntries, hname, hsn, hl, hs] using ih ys da h0r
                  · by_cases hok : (InsertInode allocOk da m.ino).ok = true
                    · have h0r : (dfsEntries allocOk p xs
                          (InsertInode allocOk da m.ino).da incl).err = 0 := by
                        simpa [dfsEntries, hname, hsn, hl, hs, hok] using h0
                      have := ih ys (InsertInode allocOk da m.ino).da h0r
                      simp [dfsEntries, hname, hsn, hl, hs, hok, this,
                        Nat.add_assoc, List.append_assoc]
                    · exact absurd h0
                        (by simp [dfsEntries, hname, hsn, hl, hs, hok, eNOMEM])
                · have h0r : (dfsEntries allocOk p xs da incl).err = 0 := by
                    simpa [dfsEntries, hname, hsn, hl] using h0
                  have := ih ys da h0r
                  simp [dfsEntries, hname, hsn, hl, this, Nat.add_assoc,
                    List.append_assoc]
          | symlink =>
              by_cases hname : n = "." ∨ n = ".."
              · have h0r : (dfsEntries allocOk p xs da incl).err = 0 := by
                  simpa [dfsEntries, hname] using h0
                simpa [dfsEntries, hname] using ih ys da h0r
              · have h0r : (dfsEntries allocOk p xs da incl).err = 0 := by
                  simpa [dfsEntries, hname, hsn] using h0
                have := ih ys da h0r
                simp [dfsEntries, hname, hsn, this, List.append_assoc]
          | other =>
              by_cases hname : n = "." ∨ n = ".."
              · have h0r : (dfsEntries allocOk p xs da incl).err = 0 := by
                  simpa [dfsEntries, hname] using h0
                simpa [dfsEntries, hname] using ih ys da h0r
              · have h0r : (dfsEntries allocOk p xs da incl).err = 0 := by
                  simpa [dfsEntries, hname, hsn] using h0
                have := ih ys da h0r
                simp [dfsEntries, hname, hsn, this, List.append_assoc]

/-- Loop halting: once an entry errors, the remaining entries are never
processed — appending further entries changes nothing, so no further records
or registry growth occur and the records already emitted stay as they are. -/
theorem dfsEntries_halt (allocOk : Nat → Bool) (p : String) (incl : Bool) :
    ∀ (xs : List (String × FSNode)) (ys : List (String × FSNode))
      (da : DynamicArray),
      (dfsEntries allocOk p xs da incl).err ≠ 0 →
      dfsEntries allocOk p (xs ++ ys) da incl =
        dfsEntries allocOk p xs da incl := by
  intro xs
  induction xs with
  | nil =>
      intro ys da h0
      exact absurd (by simp [dfsEntries]) h0
  | cons e xs ih =>
      obtain ⟨n, t⟩ := e
      intro ys da h0
      have hsn := snprintfRet_nonneg p n
      cases t with
      | statFail e =>
          by_cases hname : n = "." ∨ n = ".."
          · have h0r : (dfsEntries allocOk p xs da incl).err ≠ 0 := by
              simpa [dfsEntries, hname] using h0
            simpa [dfsEntries, hname] using ih ys da h0r
          · simp [dfsEntries, hname, hsn]
      | dir cm coe ccs =>
          by_cases hname : n = "." ∨ n = ".."
          · have h0r : (dfsEntries allocOk p xs da incl).err ≠ 0 := by
              simpa [dfsEntries, hname] using h0
            simpa [dfsEntries, hname] using ih ys da h0r
          · by_cases herr :
                (dfs allocOk (mkChildPath p n) (.dir cm coe ccs) da incl).err = 0
            · have h0r : (dfsEntries allocOk p xs
                  (dfs allocOk (mkChildPath p n) (.dir cm coe ccs) da incl).da
                  incl).err ≠ 0 := by
                simpa [dfsEntries, hname, hsn, herr] using h0
              have := ih ys
                (dfs allocOk (mkChildPath p n) (.dir cm coe ccs) da incl).da h0r
              simp [dfsEntries, hname, hsn, herr, this]
            · simp [dfsEntries, hname, hsn, herr]
      | file k m =>
          cases k with
          | reg =>
              by_cases hname : n = "." ∨ n = ".."
              · have h0r : (dfsEntries allocOk p xs da incl).err ≠ 0 := by
                  simpa [dfsEntries, hname] using h0
                simpa [dfsEntries, hname] using ih ys da h0r
              · by_cases hl : 1 < m.nlink
                · by_cases hs : SearchInode da m.ino
                  · have h0r : (dfsEntries allocOk p xs da incl).err ≠ 0 := by
                      simpa [dfsEntries, hname, hsn, hl, hs] using h0
                    simpa [dfsEntries, hname, hsn, hl, hs] using ih ys da h0r
                  · by_cases hok : (InsertInode allocOk da m.ino).ok = true
                    · have h0r : (dfsEntries allocOk p xs
                          (InsertInode allocOk da m.ino).da incl).err ≠ 0 := by
                        simpa [dfsEntries, hname, hsn, hl, hs, hok] using h0
                      have := ih ys (InsertInode allocOk da m.ino).da h0r
                      simp [dfsEntries, hname, hsn, hl, hs, hok, this]
                    · simp [dfsEntries, hname, hsn, hl, hs, hok]
                · have h0r : (dfsEntries allocOk p xs da incl).err ≠ 0 := by
                    simpa [dfsEntries, hname, hsn, hl] using h0
                  have := ih ys da h0r
                  simp [dfsEntries, hname, hsn, hl, this]
          | symlink =>
              by_cases hname : n = "." ∨ n = ".."
              · have h0r : (dfsEntries allocOk p xs da incl).err ≠ 0 := by
                  simpa [dfsEntries, hname] using h0
                simpa [dfsEntries, hname] using ih ys da h0r
              · have h0r : (dfsEntries allocOk p xs da incl).err ≠ 0 := by
                  simpa [dfsEntries, hname, hsn] using h0
                have := ih ys da h0r
                simp [dfsEntries, hname, hsn, this]
          | other =>
              by_cases hname : n = "." ∨ n = ".."
              · have h0r : (dfsEntries allocOk p xs da incl).err ≠ 0 := by
                  simpa [dfsEntries, hname] using h0
                simpa [dfsEntries, hname] using ih ys da h0r
              · have h0r : (dfsEntries allocOk p xs da incl).err ≠ 0 := by
                  simpa [dfsEntries, hname, hsn] using h0
                have := ih ys da h0r
                simp [dfsEntries, hname, hsn, this]

/-- Registry invariant preservation: dfs keeps the length field consistent
and never creates a duplicate identifier, because InsertInode is only called
after SearchInode reported the identifier absent. -/
theorem nodup_pres (allocOk : Nat → Bool) :
    (∀ t : FSNode, ∀ (p : String) (da : DynamicArray) (incl : Bool),
      WF da → WF (dfs allocOk p t da incl).da ∧
        (da.data.Nodup → (dfs allocOk p t da incl).da.data.Nodup)) ∧
    (∀ l : List (String × FSNode), ∀ (p : String) (da : DynamicArray)
      (incl : Bool),
      WF da → WF (dfsEntries allocOk p l da incl).da ∧
        (da.data.Nodup → (dfsEntries allocOk p l da incl).da.data.Nodup)) := by
  have hfile : ∀ k m, ∀ (p : String) (da : DynamicArray) (incl : Bool),
      WF da → WF (dfs allocOk p (.file k m) da incl).da ∧
        (da.data.Nodup → (dfs allocOk p (.file k m) da incl).da.data.Nodup) := by
    intro k m p da incl hwf
    exact ⟨by simpa [dfs] using hwf, fun hn => by simpa [dfs] using hn⟩
  have hstat : ∀ e, ∀ (p : String) (da : DynamicArray) (incl : Bool),
      WF da → WF (dfs allocOk p (.statFail e) da incl).da ∧
        (da.data.Nodup →
          (dfs allocOk p (.statFail e) da incl).da.data.Nodup) := by
    intro e p da incl hwf
    exact ⟨by simpa [dfs] using hwf, fun hn => by simpa [dfs] using hn⟩
  have hdir : ∀ m oe cs,
      (∀ (p : String) (da : DynamicArray) (incl : Bool),
        WF da → WF (dfsEntries allocOk p cs da incl).da ∧
          (da.data.Nodup →
            (dfsEntries allocOk p cs da incl).da.data.Nodup)) →
      ∀ (p : String) (da : DynamicArray) (incl : Bool),
      WF da → WF (dfs allocOk p (.dir m oe cs) da incl).da ∧
        (da.data.Nodup →
          (dfs allocOk p (.dir m oe cs) da incl).da.data.Nodup) := by
    intro m oe cs hq p da incl hwf
    obtain ⟨h1, h2⟩ := hq p da incl hwf
    cases oe with
    | none =>
        by_cases herr : (dfsEntries allocOk p cs da incl).err = 0
        · exact ⟨by simpa [dfs, herr] using h1, fun hn => by
            simpa [dfs, herr] using h2 hn⟩
        · exact ⟨by simpa [dfs, herr] using h1, fun hn => by
            simpa [dfs, herr] using h2 hn⟩
    | some e =>
        exact ⟨by simpa [dfs] using hwf, fun hn => by simpa [dfs] using hn⟩
  have hnil : ∀ (p : String) (da : DynamicArray) (incl : Bool),
      WF da → WF (dfsEntries allocOk p [] da incl).da ∧
        (da.data.Nodup → (dfsEntries allocOk p [] da incl).da.data.Nodup) := by
    intro p da incl hwf
    exact ⟨by simpa [dfsEntries] using hwf, fun hn => by
      simpa [dfsEntries] using hn⟩
  have hcons : ∀ (n : String) (t : FSNode) (r : List (String × FSNode)),
      (∀ (p : String) (da : DynamicArray) (incl : Bool),
        WF da → WF (dfs allocOk p t da incl).da ∧
          (da.data.Nodup → (dfs allocOk p t da incl).da.data.Nodup)) →
      (∀ (p : String) (da : DynamicArray) (incl : Bool),
        WF da → WF (dfsEntries allocOk p r da incl).da ∧
          (da.data.Nodup → (dfsEntries allocOk p r da incl).da.data.Nodup)) →
      ∀ (p : String) (da : DynamicArray) (incl : Bool),
      WF da → WF (dfsEntries allocOk p ((n, t) :: r) da incl).da ∧
        (da.data.Nodup →
          (dfsEntries allocOk p ((n, t) :: r) da incl).da.data.Nodup) := by
    intro n t r hp hq p da incl hwf
    have hsn := snprintfRet_nonneg p n
    cases t with
    | statFail e =>
        by_cases hname : n = "." ∨ n = ".."
        · obtain ⟨h1, h2⟩ := hq p da incl hwf
          exact ⟨by simpa [dfsEntries, hname] using h1, fun hn => by
            simpa [dfsEntries, hname] using h2 hn⟩
        · exact ⟨by simpa [dfsEntries, hname, hsn] using hwf, fun hn => by
            simpa [dfsEntries, hname, hsn] using hn⟩
    | dir cm coe ccs =>
        by_cases hname : n = "." ∨ n = ".."
        · obtain ⟨h1, h2⟩ := hq p da incl hwf
          exact ⟨by simpa [dfsEntries, hname] using h1, fun hn => by
            simpa [dfsEntries, hname] using h2 hn⟩
        · obtain ⟨h1, h2⟩ := hp (mkChildPath p n) da incl hwf
          by_cases herr :
              (dfs allocOk (mkChildPath p n) (.dir cm coe ccs) da incl).err = 0
          · obtain ⟨h3, h4⟩ := hq p
              (dfs allocOk (mkChildPath p n) (.dir cm coe ccs) da incl).da
              incl h1
            exact ⟨by simpa [dfsEntries, hname, hsn, herr] using h3,
              fun hn => by simpa [dfsEntries, hname, hsn, herr] using h4 (h2 hn)⟩
          · exact ⟨by simpa [dfsEntries, hname, hsn, herr] using h1,
              fun hn => by simpa [dfsEntries, hname, hsn, herr] using h2 hn⟩
    | file k m =>
        cases k with
        | reg =>
            by_cases hname : n = "." ∨ n = ".."
            · obtain ⟨h1, h2⟩ := hq p da incl hwf
              exact ⟨by simpa [dfsEntries, hname] using h1, fun hn => by
                simpa [dfsEntries, hname] using h2 hn⟩
            · by_cases hl : 1 < m.nlink
              · by_cases hs : SearchInode da m.ino
                · obtain ⟨h1, h2⟩ := hq p da incl hwf
                  exact ⟨by simpa [dfsEntries, hname, hsn, hl, hs] using h1,
                    fun hn => by
                      simpa [dfsEntries, hname, hsn, hl, hs] using h2 hn⟩
                · by_cases hok : (InsertInode allocOk da m.ino).ok = true
                  · have hins := InsertInode_ok_data allocOk da m.ino hok
                    have hwf1 : WF (InsertInode allocOk da m.ino).da :=
                      hins.2 hwf
                    have hmem : m.ino ∉ da.data := by
                      rw [SearchInode_eq_mem da m.ino hwf] at hs
                      simpa using hs
                    obtain ⟨h1, h2⟩ := hq p (InsertInode allocOk da m.ino).da
                      incl hwf1
                    refine ⟨by simpa [dfsEntries, hname, hsn, hl, hs, hok]
                      using h1, fun hn => ?_⟩
                    have hn1 : (InsertInode allocOk da m.ino).da.data.Nodup := by
                      rw [hins.1]
                      simp [List.nodup_append, hn, hmem]
                    simpa [dfsEntries, hname, hsn, hl, hs, hok] using h2 hn1
                  · have hda := InsertInode_fail_da allocOk da m.ino
                      (by simpa using hok)
                    exact ⟨by simpa [dfsEntries, hname, hsn, hl, hs, hok, hda]
                      using hwf, fun hn => by
                        simpa [dfsEntries, hname, hsn, hl, hs, hok, hda]
                          using hn⟩
              · obtain ⟨h1, h2⟩ := hq p da incl hwf
                exact ⟨by simpa [dfsEntries, hname, hsn, hl] using h1,
                  fun hn => by simpa [dfsEntries, hname, hsn, hl] using h2 hn⟩
        | symlink =>
            by_cases hname : n = "." ∨ n = ".."
            · obtain ⟨h1, h2⟩ := hq p da incl hwf
              exact ⟨by simpa [dfsEntries, hname] using h1, fun hn => by
                simpa [dfsEntries, hname] using h2 hn⟩
            · obtain ⟨h1, h2⟩ := hq p da incl hwf
              exact ⟨by simpa [dfsEntries, hname, hsn] using h1, fun hn => by
                simpa [dfsEntries, hname, hsn] using h2 hn⟩
        | other =>
            by_cases hname : n = "." ∨ n = ".."
            · obtain ⟨h1, h2⟩ := hq p da incl hwf
              exact ⟨by simpa [dfsEntries, hname] using h1, fun hn => by
                simpa [dfsEntries, hname] using h2 hn⟩
            · obtain ⟨h1, h2⟩ := hq p da incl hwf
              exact ⟨by simpa [dfsEntries, hname, hsn] using h1, fun hn => by
                simpa [dfsEntries, hname, hsn] using h2 hn⟩
  exact ⟨nodeInd hfile hstat hdir hnil hcons, entriesInd hfile hstat hdir hnil hcons⟩

/-- On any error the traversal has written at least one diagnostic. -/
theorem err_diag (allocOk : Nat → Bool) :
    (∀ t : FSNode, ∀ (p : String) (da : DynamicArray) (incl : Bool),
      (dfs allocOk p t da incl).err ≠ 0 →
        (dfs allocOk p t da incl).diags ≠ []) ∧
    (∀ l : List (String × FSNode), ∀ (p : String) (da : DynamicArray)
      (incl : Bool),
      (dfsEntries allocOk p l da incl).err ≠ 0 →
        (dfsEntries allocOk p l da incl).diags ≠ []) := by
  have hfile : ∀ k m, ∀ (p : String) (da : DynamicArray) (incl : Bool),
      (dfs allocOk p (.file k m) da incl).err ≠ 0 →
        (dfs allocOk p (.file k m) da incl).diags ≠ [] := by
    intro k m p da incl h
    exact absurd (by simp [dfs]) h
  have hstat : ∀ e, ∀ (p : String) (da : DynamicArray) (incl : Bool),
      (dfs allocOk p (.statFail e) da incl).err ≠ 0 →
        (dfs allocOk p (.statFail e) da incl).diags ≠ [] := by
    intro e p da incl _
    simp [dfs]
  have hdir : ∀ m oe cs,
      (∀ (p : String) (da : DynamicArray) (incl : Bool),
        (dfsEntries allocOk p cs da incl).err ≠ 0 →
          (dfsEntries allocOk p cs da incl).diags ≠ []) →
      ∀ (p : String) (da : DynamicArray) (incl : Bool),
      (dfs allocOk p (.dir m oe cs) da incl).err ≠ 0 →
        (dfs allocOk p (.dir m oe cs) da incl).diags ≠ [] := by
    intro m oe cs hq p da incl h
    cases oe with
    | none =>
        by_cases herr : (dfsEntries allocOk p cs da incl).err = 0
        · exact absurd (by simpa [dfs, herr] using herr) (by
            simpa [dfs, herr] using h)
        · have := hq p da incl herr
          simpa [dfs, herr] using this
    | some e => simp [dfs]
  have hnil : ∀ (p : String) (da : DynamicArray) (incl : Bool),
      (dfsEntries allocOk p [] da incl).err ≠ 0 →
        (dfsEntries allocOk p [] da incl).diags ≠ [] := by
    intro p da incl h
    exact absurd (by simp [dfsEntries]) h
  have hcons : ∀ (n : String) (t : FSNode) (r : List (String × FSNode)),
      (∀ (p : String) (da : DynamicArray) (incl : Bool),
        (dfs allocOk p t da incl).err ≠ 0 →
          (dfs allocOk p t da incl).diags ≠ []) →
      (∀ (p : String) (da : DynamicArray) (incl : Bool),
        (dfsEntries allocOk p r da incl).err ≠ 0 →
          (dfsEntries allocOk p r da incl).diags ≠ []) →
      ∀ (p : String) (da : DynamicArray) (incl : Bool),
      (dfsEntries allocOk p ((n, t) :: r) da incl).err ≠ 0 →
        (dfsEntries allocOk p ((n, t) :: r) da incl).diags ≠ [] := by
    intro n t r hp hq p da incl h
    have hsn := snprintfRet_nonneg p n
    cases t with
    | statFail e =>
        by_cases hname : n = "." ∨ n = ".."
        · have := hq p da incl (by simpa [dfsEntries, hname] using h)
          simpa [dfsEntries, hname] using this
        · simp [dfsEntries, hname, hsn]
    | dir cm coe ccs =>
        by_cases hname : n = "." ∨ n = ".."
        · have := hq p da incl (by simpa [dfsEntries, hname] using h)
          simpa [dfsEntries, hname] using this
        · by_cases herr :
              (dfs allocOk (mkChildPath p n) (.dir cm coe ccs) da incl).err = 0
          · have hne := hq p
              (dfs allocOk (mkChildPath p n) (.dir cm coe ccs) da incl).da incl
              (by simpa [dfsEntries, hname, hsn, herr] using h)
            have hgoal :
                (dfsEntries allocOk p ((n, .dir cm coe ccs) :: r) da
                  incl).diags =
                (dfs allocOk (mkChildPath p n) (.dir cm coe ccs) da
                  incl).diags ++
                (dfsEntries allocOk p r
                  (dfs allocOk (mkChildPath p n) (.dir cm coe ccs) da
                    incl).da incl).diags := by
              simp [dfsEntries, hname, hsn, herr]
            rw [hgoal]
            intro hcontra
            exact hne (List.append_eq_nil.mp hcontra).2
          · have := hp (mkChildPath p n) da incl herr
            simpa [dfsEntries, hname, hsn, herr] using this
    | file k m =>
        cases k with
        | reg =>
            by_cases hname : n = "." ∨ n = ".."
            · have := hq p da incl (by simpa [dfsEntries, hname] using h)
              simpa [dfsEntries, hname] using this
            · by_cases hl : 1 < m.nlink
              · by_cases hs : SearchInode da m.ino
                · have := hq p da incl
                    (by simpa [dfsEntries, hname, hsn, hl, hs] using h)
                  simpa [dfsEntries, hname, hsn, hl, hs] using this
                · by_cases hok : (InsertInode allocOk da m.ino).ok = true
                  · have := hq p (InsertInode allocOk da m.ino).da incl
                      (by simpa [dfsEntries, hname, hsn, hl, hs, hok] using h)
                    simpa [dfsEntries, hname, hsn, hl, hs, hok] using this
                  · simp [dfsEntries, hname, hsn, hl, hs, hok]
              · have := hq p da incl
                  (by simpa [dfsEntries, hname, hsn, hl] using h)
                simpa [dfsEntries, hname, hsn, hl] using this
        | symlink =>
            by_cases hname : n = "." ∨ n = ".."
            · have := hq p da incl (by simpa [dfsEntries, hname] using h)
              simpa [dfsEntries, hname] using this
            · have := hq p da incl (by simpa [dfsEntries, hname, hsn] using h)
              simpa [dfsEntries, hname, hsn] using this
        | other =>
            by_cases hname : n = "." ∨ n = ".."
            · have := hq p da incl (by simpa [dfsEntries, hname] using h)
              simpa [dfsEntries, hname] using this
            · have := hq p da incl (by simpa [dfsEntries, hname, hsn] using h)
              simpa [dfsEntries, hname, hsn] using this
  exact ⟨nodeInd hfile hstat hdir hnil hcons, entriesInd hfile hstat hdir hnil hcons⟩

/-- Accounting: on an error-free tree without hard links and without "." or
".." entries, dfs returns exactly the counted usage (directories and regular
files), touches the registry not at all, and reports no error. -/
theorem total_counted (allocOk : Nat → Bool) :
    (∀ t : FSNode, errorFree t = true → noHardLinks t = true →
      cleanNames t = true → ∀ (p : String) (da : DynamicArray) (incl : Bool),
      (dfs allocOk p t da incl).total = rootUsage t ∧
        (dfs allocOk p t da incl).da = da ∧
        (dfs allocOk p t da incl).err = 0) ∧
    (∀ l : List (String × FSNode), errorFreeEntries l = true →
      noHardLinksEntries l = true → cleanNamesEntries l = true →
      ∀ (p : String) (da : DynamicArray) (incl : Bool),
      (dfsEntries allocOk p l da incl).total = countedSumEntries l ∧
        (dfsEntries allocOk p l da incl).da = da ∧
        (dfsEntries allocOk p l da incl).err = 0) := by
  have hfile : ∀ k m, errorFree (.file k m) = true →
      noHardLinks (.file k m) = true → cleanNames (.file k m) = true →
      ∀ (p : String) (da : DynamicArray) (incl : Bool),
      (dfs allocOk p (.file k m) da incl).total = rootUsage (.file k m) ∧
        (dfs allocOk p (.file k m) da incl).da = da ∧
        (dfs allocOk p (.file k m) da incl).err = 0 := by
    intro k m _ _ _ p da incl
    simp [dfs, rootUsage]
  have hstat : ∀ e, errorFree (.statFail e) = true →
      noHardLinks (.statFail e) = true → cleanNames (.statFail e) = true →
      ∀ (p : String) (da : DynamicArray) (incl : Bool),
      (dfs allocOk p (.statFail e) da incl).total = rootUsage (.statFail e) ∧
        (dfs allocOk p (.statFail e) da incl).da = da ∧
        (dfs allocOk p (.statFail e) da incl).err = 0 := by
    intro e hef
    simp [errorFree] at hef
  have hdir : ∀ m oe cs,
      (errorFreeEntries cs = true → noHardLinksEntries cs = true →
        cleanNamesEntries cs = true →
        ∀ (p : String) (da : DynamicArray) (incl : Bool),
        (dfsEntries allocOk p cs da incl).total = countedSumEntries cs ∧
          (dfsEntries allocOk p cs da incl).da = da ∧
          (dfsEntries allocOk p cs da incl).err = 0) →
      errorFree (.dir m oe cs) = true → noHardLinks (.dir m oe cs) = true →
      cleanNames (.dir m oe cs) = true →
      ∀ (p : String) (da : DynamicArray) (incl : Bool),
      (dfs allocOk p (.dir m oe cs) da incl).total = rootUsage (.dir m oe cs) ∧
        (dfs allocOk p (.dir m oe cs) da incl).da = da ∧
        (dfs allocOk p (.dir m oe cs) da incl).err = 0 := by
    intro m oe cs hq hef hnh hcn p da incl
    simp only [errorFree, Bool.and_eq_true, Option.isNone_iff_eq_none] at hef
    simp only [noHardLinks] at hnh
    simp only [cleanNames] at hcn
    obtain ⟨hoe, hefcs⟩ := hef
    obtain ⟨h1, h2, h3⟩ := hq hefcs hnh hcn p da incl
    subst hoe
    simp [dfs, h1, h2, h3, rootUsage]
  have hnil : errorFreeEntries [] = true → noHardLinksEntries [] = true →
      cleanNamesEntries [] = true →
      ∀ (p : String) (da : DynamicArray) (incl : Bool),
      (dfsEntries allocOk p [] da incl).total = countedSumEntries [] ∧
        (dfsEntries allocOk p [] da incl).da = da ∧
        (dfsEntries allocOk p [] da incl).err = 0 := by
    intro _ _ _ p da incl
    simp [dfsEntries, countedSumEntries]
  have hcons : ∀ (n : String) (t : FSNode) (r : List (String × FSNode)),
      (errorFree t = true → noHardLinks t = true → cleanNames t = true →
        ∀ (p : String) (da : DynamicArray) (incl : Bool),
        (dfs allocOk p t da incl).total = rootUsage t ∧
          (dfs allocOk p t da incl).da = da ∧
          (dfs allocOk p t da incl).err = 0) →
      (errorFreeEntries r = true → noHardLinksEntries r = true →
        cleanNamesEntries r = true →
        ∀ (p : String) (da : DynamicArray) (incl : Bool),
        (dfsEntries allocOk p r da incl).total = countedSumEntries r ∧
          (dfsEntries allocOk p r da incl).da = da ∧
          (dfsEntries allocOk p r da incl).err = 0) →
      errorFreeEntries ((n, t) :: r) = true →
      noHardLinksEntries ((n, t) :: r) = true →
      cleanNamesEntries ((n, t) :: r) = true →
      ∀ (p : String) (da : DynamicArray) (incl : Bool),
      (dfsEntries allocOk p ((n, t) :: r) da incl).total =
          countedSumEntries ((n, t) :: r) ∧
        (dfsEntries allocOk p ((n, t) :: r) da incl).da = da ∧
        (dfsEntries allocOk p ((n, t) :: r) da incl).err = 0 := by
    intro n t r hp hq hef hnh hcn p da incl
    simp only [errorFreeEntries, Bool.and_eq_true] at hef
    simp only [noHardLinksEntries, Bool.and_eq_true] at hnh
    simp only [cleanNamesEntries, Bool.and_eq_true, Bool.not_eq_eq_eq_not,
      Bool.not_true, Bool.or_eq_false_iff, beq_eq_false_iff_ne, ne_eq] at hcn
    have hname : ¬ (n = "." ∨ n = "..") := by
      rintro (h | h) <;> [exact hcn.1.1.1 h; exact hcn.1.1.2 h]
    have hsn := snprintfRet_nonneg p n
    obtain ⟨hq1, hq2, hq3⟩ := hq hef.2 hnh.2 hcn.2 p da incl
    cases t with
    | statFail e => simp [errorFree] at hef
    | dir cm coe ccs =>
        obtain ⟨hp1, hp2, hp3⟩ := hp hef.1 hnh.1 hcn.1.2 (mkChildPath p n) da
          incl
        simp [dfsEntries, hname, hsn, hp1, hp2, hp3, hq1, hq2, hq3,
          countedSumEntries, rootUsage, countedSum]
    | file k m =>
        cases k with
        | reg =>
            have hl : ¬ 1 < m.nlink := by
              simp only [noHardLinks] at hnh
              have := hnh.1
              simp only [Nat.ble_eq] at this
              omega
            simp [dfsEntries, hname, hsn, hl, hq1, hq2, hq3,
              countedSumEntries, countedSum]
        | symlink =>
            simp [dfsEntries, hname, hsn, hq1, hq2, hq3, countedSumEntries,
              countedSum]
        | other =>
            simp [dfsEntries, hname, hsn, hq1, hq2, hq3, countedSumEntries,
              countedSum]
  exact ⟨nodeInd hfile hstat hdir hnil hcons, entriesInd hfile hstat hdir hnil hcons⟩

/-- Directory unfolding, no error: the record for the directory itself is
appended strictly after every record produced by its entry loop. -/
theorem dfs_dir_ok (allocOk : Nat → Bool) (p : String) (m : FMeta)
    (cs : List (String × FSNode)) (da : DynamicArray) (incl : Bool)
    (h : (dfsEntries allocOk p cs da incl).err = 0) :
    dfs allocOk p (.dir m none cs) da incl =
      { total := m.blocks / 2 + (dfsEntries allocOk p cs da incl).total,
        da := (dfsEntries allocOk p cs da incl).da,
        err := 0,
        out := (dfsEntries allocOk p cs da incl).out ++
          [(m.blocks / 2 + (dfsEntries allocOk p cs da incl).total, p)],
        diags := (dfsEntries allocOk p cs da incl).diags } := by
  simp [dfs, h]

/-- Directory unfolding, entry-loop error: the loop's partial streams are
kept, the error propagates, and no record for the directory is appended. -/
theorem dfs_dir_err (allocOk : Nat → Bool) (p : String) (m : FMeta)
    (cs : List (String × FSNode)) (da : DynamicArray) (incl : Bool)
    (h : (dfsEntries allocOk p cs da incl).err ≠ 0) :
    dfs allocOk p (.dir m none cs) da incl =
      { total := m.blocks / 2 + (dfsEntries allocOk p cs da incl).total,
        da := (dfsEntries allocOk p cs da incl).da,
        err := (dfsEntries allocOk p cs da incl).err,
        out := (dfsEntries allocOk p cs da incl).out,
        diags := (dfsEntries allocOk p cs da incl).diags } := by
  simp [dfs, h]

/-- Files-disabled emission: with include_files false, every record a
directory traversal emits carries the constructed path of some directory of
the tree (the only PrintDiskUsage sites that can run are the per-directory
one and the non-directory root one). -/
theorem out_dirs_only (allocOk : Nat → Bool) :
    (∀ t : FSNode, ∀ (m : FMeta) (oe : Option Nat)
      (cs : List (String × FSNode)), t = .dir m oe cs →
      ∀ (p : String) (da : DynamicArray), ∀ x : Nat × String,
      x ∈ (dfs allocOk p t da false).out → x.2 ∈ dirPaths p t) ∧
    (∀ l : List (String × FSNode), ∀ (p : String) (da : DynamicArray),
      ∀ x : Nat × String,
      x ∈ (dfsEntries allocOk p l da false).out →
        x.2 ∈ dirPathsEntries p l) := by
  have hfile : ∀ k m0, ∀ (m : FMeta) (oe : Option Nat)
      (cs : List (String × FSNode)), (FSNode.file k m0) = .dir m oe cs →
      ∀ (p : String) (da : DynamicArray), ∀ x : Nat × String,
      x ∈ (dfs allocOk p (.file k m0) da false).out →
        x.2 ∈ dirPaths p (.file k m0) := by
    intro k m0 m oe cs h
    exact absurd h (by simp)
  have hstat : ∀ e, ∀ (m : FMeta) (oe : Option Nat)
      (cs : List (String × FSNode)), (FSNode.statFail e) = .dir m oe cs →
      ∀ (p : String) (da : DynamicArray), ∀ x : Nat × String,
      x ∈ (dfs allocOk p (.statFail e) da false).out →
        x.2 ∈ dirPaths p (.statFail e) := by
    intro e m oe cs h
    exact absurd h (by simp)
  have hdir : ∀ m oe cs,
      (∀ (p : String) (da : DynamicArray), ∀ x : Nat × String,
        x ∈ (dfsEntries allocOk p cs da false).out →
          x.2 ∈ dirPathsEntries p cs) →
      ∀ (m1 : FMeta) (oe1 : Option Nat) (cs1 : List (String × FSNode)),
      (FSNode.dir m oe cs) = .dir m1 oe1 cs1 →
      ∀ (p : String) (da : DynamicArray), ∀ x : Nat × String,
      x ∈ (dfs allocOk p (.dir m oe cs) da false).out →
        x.2 ∈ dirPaths p (.dir m oe cs) := by
    intro m oe cs hq m1 oe1 cs1 _ p da x hx
    cases oe with
    | none =>
        by_cases herr : (dfsEntries allocOk p cs da false).err = 0
        · rw [dfs_dir_ok allocOk p m cs da false herr] at hx
          simp only [List.mem_append, List.mem_singleton] at hx
          rcases hx with hx | hx
          · exact List.mem_cons_of_mem _ (hq p da x hx)
          · subst hx
            simp [dirPaths]
        · rw [dfs_dir_err allocOk p m cs da false herr] at hx
          exact List.mem_cons_of_mem _ (hq p da x hx)
    | some e => simp [dfs] at hx
  have hnil : ∀ (p : String) (da : DynamicArray), ∀ x : Nat × String,
      x ∈ (dfsEntries allocOk p [] da false).out →
        x.2 ∈ dirPathsEntries p [] := by
    intro p da x hx
    simp [dfsEntries] at hx
  have hcons : ∀ (n : String) (t : FSNode) (r : List (String × FSNode)),
      (∀ (m : FMeta) (oe : Option Nat) (cs : List (String × FSNode)),
        t = .dir m oe cs →
        ∀ (p : String) (da : DynamicArray), ∀ x : Nat × String,
        x ∈ (dfs allocOk p t da false).out → x.2 ∈ dirPaths p t) →
      (∀ (p : String) (da : DynamicArray), ∀ x : Nat × String,
        x ∈ (dfsEntries allocOk p r da false).out →
          x.2 ∈ dirPathsEntries p r) →
      ∀ (p : String) (da : DynamicArray), ∀ x : Nat × String,
      x ∈ (dfsEntries allocOk p ((n, t) :: r) da false).out →
        x.2 ∈ dirPathsEntries p ((n, t) :: r) := by
    intro n t r hp hq p da x hx
    have hsn := snprintfRet_nonneg p n
    by_cases hname : n = "." ∨ n = ".."
    · cases t with
      | statFail e =>
          rw [show (dfsEntries allocOk p ((n, .statFail e) :: r) da false) =
            dfsEntries allocOk p r da false by simp [dfsEntries, hname]] at hx
          simp only [dirPathsEntries, hname, if_pos, List.nil_append]
          exact hq p da x hx
      | dir cm coe ccs =>
          rw [show (dfsEntries allocOk p ((n, .dir cm coe ccs) :: r) da
            false) = dfsEntries allocOk p r da false by
            simp [dfsEntries, hname]] at hx
          simp only [dirPathsEntries, hname, if_pos, List.nil_append]
          exact hq p da x hx
      | file k m =>
          have : (dfsEntries allocOk p ((n, .file k m) :: r) da false) =
              dfsEntries allocOk p r da false := by
            cases k <;> simp [dfsEntries, hname]
          rw [this] at hx
          simp only [dirPathsEntries, hname, if_pos, List.nil_append]
          exact hq p da x hx
    · cases t with
      | statFail e =>
          simp [dfsEntries, hname, hsn] at hx
      | dir cm coe ccs =>
          by_cases herr : (dfs allocOk (mkChildPath p n) (.dir cm coe ccs) da
            false).err = 0
          · have hout : (dfsEntries allocOk p ((n, .dir cm coe ccs) :: r) da
                false).out =
                (dfs allocOk (mkChildPath p n) (.dir cm coe ccs) da false).out
                ++ (dfsEntries allocOk p r
                  (dfs allocOk (mkChildPath p n) (.dir cm coe ccs) da
                    false).da false).out := by
              simp [dfsEntries, hname, hsn, herr]
            rw [hout] at hx
            simp only [dirPathsEntries, hname, if_neg, List.mem_append]
            simp only [List.mem_append] at hx
            rcases hx with hx | hx
            · exact Or.inl (hp cm coe ccs rfl (mkChildPath p n) da x hx)
            · exact Or.inr (hq p _ x hx)
          · have hout : (dfsEntries allocOk p ((n, .dir cm coe ccs) :: r) da
                false).out =
                (dfs allocOk (mkChildPath p n) (.dir cm coe ccs) da
                  false).out := by
              simp [dfsEntries, hname, hsn, herr]
            rw [hout] at hx
            simp only [dirPathsEntries, hname, if_neg, List.mem_append]
            exact Or.inl (hp cm coe ccs rfl (mkChildPath p n) da x hx)
      | file k m =>
          simp only [dirPathsEntries, dirPaths, hname]
          simp only [if_false, ite_false, List.nil_append]
          cases k with
          | reg =>
              by_cases hl : 1 < m.nlink
              · by_cases hs : SearchInode da m.ino
                · rw [show (dfsEntries allocOk p ((n, .file .reg m) :: r) da
                    false) = dfsEntries allocOk p r da false by
                    simp [dfsEntries, hname, hsn, hl, hs]] at hx
                  simpa using hq p da x hx
                · by_cases hok : (InsertInode allocOk da m.ino).ok = true
                  · have hout : (dfsEntries allocOk p
                        ((n, .file .reg m) :: r) da false).out =
                        (dfsEntries allocOk p r
                          (InsertInode allocOk da m.ino).da false).out := by
                      simp [dfsEntries, hname, hsn, hl, hs, hok]
                    rw [hout] at hx
                    exact hq p _ x hx
                  · simp [dfsEntries, hname, hsn, hl, hs, hok] at hx
              · have hout : (dfsEntries allocOk p ((n, .file .reg m) :: r) da
                    false).out =
                    (dfsEntries allocOk p r da false).out := by
                  simp [dfsEntries, hname, hsn, hl]
                rw [hout] at hx
                exact hq p da x hx
          | symlink =>
              have hout : (dfsEntries allocOk p ((n, .file .symlink m) :: r)
                  da false).out = (dfsEntries allocOk p r da false).out := by
                simp [dfsEntries, hname, hsn]
              rw [hout] at hx
              exact hq p da x hx
          | other =>
              have hout : (dfsEntries allocOk p ((n, .file .other m) :: r)
                  da false).out = (dfsEntries allocOk p r da false).out := by
                simp [dfsEntries, hname, hsn]
              rw [hout] at hx
              exact hq p da x hx
  exact ⟨nodeInd hfile hstat hdir hnil hcons, entriesInd hfile hstat hdir hnil hcons⟩

/-- Files-enabled emission refinement: an error-free traversal with
include_files set emits records whose paths are exactly the spec's post-order
emission list — one record per directory and per non-duplicate non-directory
entry — and the registry contents track the spec's seen-set. -/
theorem emits_spec (allocOk : Nat → Bool) :
    (∀ t : FSNode, ∀ (p : String) (da : DynamicArray), WF da →
      (dfs allocOk p t da true).err = 0 →
      (dfs allocOk p t da true).out.map Prod.snd = (specEmits p t da.data).1 ∧
        (dfs allocOk p t da true).da.data = (specEmits p t da.data).2) ∧
    (∀ l : List (String × FSNode), ∀ (p : String) (da : DynamicArray), WF da →
      (dfsEntries allocOk p l da true).err = 0 →
      (dfsEntries allocOk p l da true).out.map Prod.snd =
          (specEmitsEntries p l da.data).1 ∧
        (dfsEntries allocOk p l da true).da.data =
          (specEmitsEntries p l da.data).2) := by
  have hfile : ∀ k m, ∀ (p : String) (da : DynamicArray), WF da →
      (dfs allocOk p (.file k m) da true).err = 0 →
      (dfs allocOk p (.file k m) da true).out.map Prod.snd =
          (specEmits p (.file k m) da.data).1 ∧
        (dfs allocOk p (.file k m) da true).da.data =
          (specEmits p (.file k m) da.data).2 := by
    intro k m p da _ _
    simp [dfs, specEmits]
  have hstat : ∀ e, ∀ (p : String) (da : DynamicArray), WF da →
      (dfs allocOk p (.statFail e) da true).err = 0 →
      (dfs allocOk p (.statFail e) da true).out.map Prod.snd =
          (specEmits p (.statFail e) da.data).1 ∧
        (dfs allocOk p (.statFail e) da true).da.data =
          (specEmits p (.statFail e) da.data).2 := by
    intro e p da _ herr
    simp [dfs] at herr
  have hdir : ∀ m oe cs,
      (∀ (p : String) (da : DynamicArray), WF da →
        (dfsEntries allocOk p cs da true).err = 0 →
        (dfsEntries allocOk p cs da true).out.map Prod.snd =
            (specEmitsEntries p cs da.data).1 ∧
          (dfsEntries allocOk p cs da true).da.data =
            (specEmitsEntries p cs da.data).2) →
      ∀ (p : String) (da : DynamicArray), WF da →
      (dfs allocOk p (.dir m oe cs) da true).err = 0 →
      (dfs allocOk p (.dir m oe cs) da true).out.map Prod.snd =
          (specEmits p (.dir m oe cs) da.data).1 ∧
        (dfs allocOk p (.dir m oe cs) da true).da.data =
          (specEmits p (.dir m oe cs) da.data).2 := by
    intro m oe cs hq p da hwf herr
    cases oe with
    | none =>
        by_cases he : (dfsEntries allocOk p cs da true).err = 0
        · obtain ⟨h1, h2⟩ := hq p da hwf he
          rw [dfs_dir_ok allocOk p m cs da true he]
          simp [specEmits, h1, h2]
        · rw [dfs_dir_err allocOk p m cs da true he] at herr
          exact absurd herr he
    | some e => simp [dfs] at herr
  have hnil : ∀ (p : String) (da : DynamicArray), WF da →
      (dfsEntries allocOk p [] da true).err = 0 →
      (dfsEntries allocOk p [] da true).out.map Prod.snd =
          (specEmitsEntries p [] da.data).1 ∧
        (dfsEntries allocOk p [] da true).da.data =
          (specEmitsEntries p [] da.data).2 := by
    intro p da _ _
    simp [dfsEntries, specEmitsEntries]
  have hcons : ∀ (n : String) (t : FSNode) (r : List (String × FSNode)),
      (∀ (p : String) (da : DynamicArray), WF da →
        (dfs allocOk p t da true).err = 0 →
        (dfs allocOk p t da true).out.map Prod.snd =
            (specEmits p t da.data).1 ∧
          (dfs allocOk p t da true).da.data = (specEmits p t da.data).2) →
      (∀ (p : String) (da : DynamicArray), WF da →
        (dfsEntries allocOk p r da true).err = 0 →
        (dfsEntries allocOk p r da true).out.map Prod.snd =
            (specEmitsEntries p r da.data).1 ∧
          (dfsEntries allocOk p r da true).da.data =
            (specEmitsEntries p r da.data).2) →
      ∀ (p : String) (da : DynamicArray), WF da →
      (dfsEntries allocOk p ((n, t) :: r) da true).err = 0 →
      (dfsEntries allocOk p ((n, t) :: r) da true).out.map Prod.snd =
          (specEmitsEntries p ((n, t) :: r) da.data).1 ∧
        (dfsEntries allocOk p ((n, t) :: r) da true).da.data =
          (specEmitsEntries p ((n, t) :: r) da.data).2 := by
    intro n t r hp hq p da hwf herr
    have hsn := snprintfRet_nonneg p n
    by_cases hname : n = "." ∨ n = ".."
    · have hstep : dfsEntries allocOk p ((n, t) :: r) da true =
          dfsEntries allocOk p r da true := by
        cases t with
        | statFail e => simp [dfsEntries, hname]
        | dir cm coe ccs => simp [dfsEntries, hname]
        | file k m => cases k <;> simp [dfsEntries, hname]
      rw [hstep] at herr ⊢
      have hspec : specEmitsEntries p ((n, t) :: r) da.data =
          specEmitsEntries p r da.data := by
        cases t with
        | statFail e => simp [specEmitsEntries, hname]
        | dir cm coe ccs => simp [specEmitsEntries, hname]
        | file k m => cases k <;> simp [specEmitsEntries, hname]
      rw [hspec]
      exact hq p da hwf herr
    · cases t with
      | statFail e =>
          exact absurd herr (by simp [dfsEntries, hname, hsn])
      | dir cm coe ccs =>
          by_cases he :
              (dfs allocOk (mkChildPath p n) (.dir cm coe ccs) da true).err = 0
          · have hwf1 : WF (dfs allocOk (mkChildPath p n) (.dir cm coe ccs)
                da true).da :=
              ((nodup_pres allocOk).1 (.dir cm coe ccs) (mkChildPath p n) da
                true hwf).1
            have herr2 : (dfsEntries allocOk p r
                (dfs allocOk (mkChildPath p n) (.dir cm coe ccs) da true).da
                true).err = 0 := by
              simpa [dfsEntries, hname, hsn, he] using herr
            obtain ⟨hc1, hc2⟩ := hp (mkChildPath p n) da hwf he
            obtain ⟨hr1, hr2⟩ := hq p
              (dfs allocOk (mkChildPath p n) (.dir cm coe ccs) da true).da
              hwf1 herr2
            constructor
            · have hout : (dfsEntries allocOk p ((n, .dir cm coe ccs) :: r)
                  da true).out =
                  (dfs allocOk (mkChildPath p n) (.dir cm coe ccs) da
                    true).out ++
                  (dfsEntries allocOk p r
                    (dfs allocOk (mkChildPath p n) (.dir cm coe ccs) da
                      true).da true).out := by
                simp [dfsEntries, hname, hsn, he]
              rw [hout]
              simp only [List.map_append, hc1, hr1, hc2]
              simp [specEmitsEntries, hname]
            · have hda : (dfsEntries allocOk p ((n, .dir cm coe ccs) :: r)
                  da true).da =
                  (dfsEntries allocOk p r
                    (dfs allocOk (mkChildPath p n) (.dir cm coe ccs) da
                      true).da true).da := by
                simp [dfsEntries, hname, hsn, he]
              rw [hda, hr2, hc2]
              simp [specEmitsEntries, hname]
          · exact absurd herr (by simp [dfsEntries, hname, hsn, he])
      | file k m =>
          cases k with
          | reg =>
              by_cases hl : 1 < m.nlink
              · by_cases hs : SearchInode da m.ino
                · have hmem : m.ino ∈ da.data := by
                    rw [SearchInode_eq_mem da m.ino hwf] at hs
                    simpa using hs
                  have hstep : dfsEntries allocOk p ((n, .file .reg m) :: r)
                      da true = dfsEntries allocOk p r da true := by
                    simp [dfsEntries, hname, hsn, hl, hs]
                  rw [hstep] at herr ⊢
                  have hspec : specEmitsEntries p ((n, .file .reg m) :: r)
                      da.data = specEmitsEntries p r da.data := by
                    simp [specEmitsEntries, hname, hl, hmem]
                  rw [hspec]
                  exact hq p da hwf herr
                · have hmem : m.ino ∉ da.data := by
                    rw [SearchInode_eq_mem da m.ino hwf] at hs
                    simpa using hs
                  by_cases hok : (InsertInode allocOk da m.ino).ok = true
                  · have hins := InsertInode_ok_data allocOk da m.ino hok
                    have hwf1 : WF (InsertInode allocOk da m.ino).da :=
                      hins.2 hwf
                    have herr2 : (dfsEntries allocOk p r
                        (InsertInode allocOk da m.ino).da true).err = 0 := by
                      simpa [dfsEntries, hname, hsn, hl, hs, hok] using herr
                    obtain ⟨hr1, hr2⟩ := hq p (InsertInode allocOk da m.ino).da
                      hwf1 herr2
                    constructor
                    · have hout : (dfsEntries allocOk p
                          ((n, .file .reg m) :: r) da true).out =
                          (m.blocks / 2, mkChildPath p n) ::
                          (dfsEntries allocOk p r
                            (InsertInode allocOk da m.ino).da true).out := by
                        simp [dfsEntries, hname, hsn, hl, hs, hok]
                      rw [hout]
                      simp only [List.map_cons, hr1, hins.1]
                      simp [specEmitsEntries, hname, hl, hmem]
                    · have hda : (dfsEntries allocOk p
                          ((n, .file .reg m) :: r) da true).da =
                          (dfsEntries allocOk p r
                            (InsertInode allocOk da m.ino).da true).da := by
                        simp [dfsEntries, hname, hsn, hl, hs, hok]
                      rw [hda, hr2, hins.1]
                      simp [specEmitsEntries, hname, hl, hmem]
                  · exact absurd herr
                      (by simp [dfsEntries, hname, hsn, hl, hs, hok, eNOMEM])
              · have herr2 : (dfsEntries allocOk p r da true).err = 0 := by
                  simpa [dfsEntries, hname, hsn, hl] using herr
                obtain ⟨hr1, hr2⟩ := hq p da hwf herr2
                constructor
                · have hout : (dfsEntries allocOk p ((n, .file .reg m) :: r)
                      da true).out = (m.blocks / 2, mkChildPath p n) ::
                      (dfsEntries allocOk p r da true).out := by
                    simp [dfsEntries, hname, hsn, hl]
                  rw [hout]
                  simp only [List.map_cons, hr1]
                  simp [specEmitsEntries, hname, hl]
                · have hda : (dfsEntries allocOk p ((n, .file .reg m) :: r)
                      da true).da = (dfsEntries allocOk p r da true).da := by
                    simp [dfsEntries, hname, hsn, hl]
                  rw [hda, hr2]
                  simp [specEmitsEntries, hname, hl]
          | symlink =>
              have herr2 : (dfsEntries allocOk p r da true).err = 0 := by
                simpa [dfsEntries, hname, hsn] using herr
              obtain ⟨hr1, hr2⟩ := hq p da hwf herr2
              constructor
              · have hout : (dfsEntries allocOk p ((n, .file .symlink m) :: r)
                    da true).out = (m.blocks / 2, mkChildPath p n) ::
                    (dfsEntries allocOk p r da true).out := by
                  simp [dfsEntries, hname, hsn]
                rw [hout]
                simp only [List.map_cons, hr1]
                simp [specEmitsEntries, hname]
              · have hda : (dfsEntries allocOk p ((n, .file .symlink m) :: r)
                    da true).da = (dfsEntries allocOk p r da true).da := by
                  simp [dfsEntries, hname, hsn]
                rw [hda, hr2]
                simp [specEmitsEntries, hname]
          | other =>
              have herr2 : (dfsEntries allocOk p r da true).err = 0 := by
                simpa [dfsEntries, hname, hsn] using herr
              obtain ⟨hr1, hr2⟩ := hq p da hwf herr2
              constructor
              · have hout : (dfsEntries allocOk p ((n, .file .other m) :: r)
                    da true).out = (m.blocks / 2, mkChildPath p n) ::
                    (dfsEntries allocOk p r da true).out := by
                  simp [dfsEntries, hname, hsn]
                rw [hout]
                simp only [List.map_cons, hr1]
                simp [specEmitsEntries, hname]
              · have hda : (dfsEntries allocOk p ((n, .file .other m) :: r)
                    da true).da = (dfsEntries allocOk p r da true).da := by
                  simp [dfsEntries, hname, hsn]
                rw [hda, hr2]
                simp [specEmitsEntries, hname]
  exact ⟨nodeInd hfile hstat hdir hnil hcons, entriesInd hfile hstat hdir hnil hcons⟩

/-! Claim theorems. -/

/-- C3: in every error-free traversal the emitted records are in post-order:
a directory's record is appended strictly after every record of its entry
loop (hence after all of its descendants' records), and the records of
entries processed later come strictly after those of entries processed
earlier, from the registry state the earlier entries reached. -/
theorem c3_postorder (allocOk : Nat → Bool) (p : String) (incl : Bool) :
    (∀ (m : FMeta) (oe : Option Nat) (cs : List (String × FSNode))
      (da : DynamicArray),
      (dfs allocOk p (.dir m oe cs) da incl).err = 0 →
      (dfs allocOk p (.dir m oe cs) da incl).out =
        (dfsEntries allocOk p cs da incl).out ++
        [((dfs allocOk p (.dir m oe cs) da incl).total, p)]) ∧
    (∀ (xs ys : List (String × FSNode)) (da : DynamicArray),
      (dfsEntries allocOk p xs da incl).err = 0 →
      (dfsEntries allocOk p (xs ++ ys) da incl).out =
        (dfsEntries allocOk p xs da incl).out ++
        (dfsEntries allocOk p ys (dfsEntries allocOk p xs da incl).da
          incl).out) := by
  constructor
  · intro m oe cs da herr
    cases oe with
    | some e => simp [dfs] at herr
    | none =>
        by_cases he : (dfsEntries allocOk p cs da incl).err = 0
        · rw [dfs_dir_ok allocOk p m cs da incl he]
        · rw [dfs_dir_err allocOk p m cs da incl he] at herr
          exact absurd herr he
  · intro xs ys da herr
    rw [dfsEntries_append allocOk p incl xs ys da herr]

/-- C3 witness: a concrete two-entry directory, evaluated. -/
theorem c3_witness :
    (dfs (fun _ => true) "d"
        (.dir ⟨1, 1, 2⟩ none [("a", .file .reg ⟨2, 1, 8⟩)])
        (InitDynamicArray 8 8) true).out =
      (dfsEntries (fun _ => true) "d" [("a", .file .reg ⟨2, 1, 8⟩)]
        (InitDynamicArray 8 8) true).out ++
      [((dfs (fun _ => true) "d"
          (.dir ⟨1, 1, 2⟩ none [("a", .file .reg ⟨2, 1, 8⟩)])
          (InitDynamicArray 8 8) true).total, "d")] ∧
    (dfsEntries (fun _ => true) "d"
        ([("a", .file .reg ⟨2, 1, 8⟩)] ++ [("b", .file .reg ⟨3, 1, 4⟩)])
        (InitDynamicArray 8 8) true).out =
      (dfsEntries (fun _ => true) "d" [("a", .file .reg ⟨2, 1, 8⟩)]
        (InitDynamicArray 8 8) true).out ++
      (dfsEntries (fun _ => true) "d" [("b", .file .reg ⟨3, 1, 4⟩)]
        (dfsEntries (fun _ => true) "d" [("a", .file .reg ⟨2, 1, 8⟩)]
          (InitDynamicArray 8 8) true).da true).out := by
  have h := c3_postorder (fun _ => true) "d" true
  exact ⟨h.1 ⟨1, 1, 2⟩ none [("a", .file .reg ⟨2, 1, 8⟩)]
      (InitDynamicArray 8 8) (by decide),
    h.2 [("a", .file .reg ⟨2, 1, 8⟩)] [("b", .file .reg ⟨3, 1, 4⟩)]
      (InitDynamicArray 8 8) (by decide)⟩

/-- C5: the first error aborts the traversal: a failing entry loop halts
(entries after the failing one are never processed and change nothing, so
records already emitted stay), the enclosing directory emits no record of
its own and propagates the error unchanged, and at top level du reports
failure while keeping exactly the records streamed before the error. -/
theorem c5_error_abort (allocOk : Nat → Bool) (incl : Bool) :
    (∀ (p : String) (m : FMeta) (cs : List (String × FSNode))
      (da : DynamicArray),
      (dfsEntries allocOk p cs da incl).err ≠ 0 →
      (dfs allocOk p (.dir m none cs) da incl).out =
          (dfsEntries allocOk p cs da incl).out ∧
        (dfs allocOk p (.dir m none cs) da incl).err =
          (dfsEntries allocOk p cs da incl).err) ∧
    (∀ (p : String) (xs ys : List (String × FSNode)) (da : DynamicArray),
      (dfsEntries allocOk p xs da incl).err ≠ 0 →
      dfsEntries allocOk p (xs ++ ys) da incl =
        dfsEntries allocOk p xs da incl) ∧
    (∀ (p : String) (t : FSNode),
      (dfs allocOk p t (InitDynamicArray kInitSize inoSize) incl).err ≠ 0 →
      (du allocOk p t incl).ret = -1 ∧
        (du allocOk p t incl).out =
          (dfs allocOk p t (InitDynamicArray kInitSize inoSize) incl).out) := by
  refine ⟨?_, ?_, ?_⟩
  · intro p m cs da herr
    rw [dfs_dir_err allocOk p m cs da incl herr]
    exact ⟨rfl, rfl⟩
  · intro p xs ys da herr
    exact dfsEntries_halt allocOk p incl xs ys da herr
  · intro p t herr
    exact ⟨by simp [du, herr], by simp [du]⟩

/-- C5 witness: a directory whose second entry fails to stat; the third
entry is never processed, the directory emits no record, du fails. -/
theorem c5_witness :
    (dfs (fun _ => true) "d"
        (.dir ⟨1, 1, 2⟩ none
          [("a", .file .reg ⟨2, 1, 8⟩), ("x", .statFail 1)])
        (InitDynamicArray 8 8) true).out =
      (dfsEntries (fun _ => true) "d"
        [("a", .file .reg ⟨2, 1, 8⟩), ("x", .statFail 1)]
        (InitDynamicArray 8 8) true).out ∧
    dfsEntries (fun _ => true) "d"
        ([("a", .file .reg ⟨2, 1, 8⟩), ("x", .statFail 1)] ++
          [("b", .file .reg ⟨3, 1, 4⟩)])
        (InitDynamicArray 8 8) true =
      dfsEntries (fun _ => true) "d"
        [("a", .file .reg ⟨2, 1, 8⟩), ("x", .statFail 1)]
        (InitDynamicArray 8 8) true ∧
    (du (fun _ => true) "d"
        (.dir ⟨1, 1, 2⟩ none
          [("a", .file .reg ⟨2, 1, 8⟩), ("x", .statFail 1)]) true).ret = -1 := by
  have h := c5_error_abort (fun _ => true) true
  refine ⟨(h.1 "d" ⟨1, 1, 2⟩
      [("a", .file .reg ⟨2, 1, 8⟩), ("x", .statFail 1)]
      (InitDynamicArray 8 8) (by decide)).1,
    h.2.1 "d" [("a", .file .reg ⟨2, 1, 8⟩), ("x", .statFail 1)]
      [("b", .file .reg ⟨3, 1, 4⟩)] (InitDynamicArray 8 8) (by decide),
    (h.2.2 "d" (.dir ⟨1, 1, 2⟩ none
      [("a", .file .reg ⟨2, 1, 8⟩), ("x", .statFail 1)]) (by decide)).1⟩

/-- C7: the inode registry is append-only and duplicate-free: InsertInode
only ever appends (and leaves the registry unchanged when it fails), dfs
only ever extends the stored identifiers, and — since insertion happens only
after a failed membership scan — a well-formed duplicate-free registry stays
duplicate-free through every call of the traversal. -/
theorem c7_registry_invariant (allocOk : Nat → Bool) :
    (∀ (da : DynamicArray) (ino : Nat),
      ((InsertInode allocOk da ino).ok = true →
        (InsertInode allocOk da ino).da.data = da.data ++ [ino]) ∧
      ((InsertInode allocOk da ino).ok = false →
        (InsertInode allocOk da ino).da = da)) ∧
    (∀ (t : FSNode) (p : String) (da : DynamicArray) (incl : Bool),
      ∃ tl, (dfs allocOk p t da incl).da.data = da.data ++ tl) ∧
    (∀ (t : FSNode) (p : String) (da : DynamicArray) (incl : Bool),
      WF da → da.data.Nodup → (dfs allocOk p t da incl).da.data.Nodup) := by
  refine ⟨?_, (data_ext allocOk).1, ?_⟩
  · intro da ino
    exact ⟨fun h => (InsertInode_ok_data allocOk da ino h).1,
      fun h => InsertInode_fail_da allocOk da ino h⟩
  · intro t p da incl hwf hnd
    exact ((nodup_pres allocOk).1 t p da incl hwf).2 hnd

/-- C7 witness: two hard links to inode 5 in one directory; the registry
grows from empty to exactly one copy of 5 and stays duplicate-free. -/
theorem c7_witness :
    ((InsertInode (fun _ => true) (InitDynamicArray 8 8) 5).da.data =
      [] ++ [5]) ∧
    (∃ tl, (dfs (fun _ => true) "d"
        (.dir ⟨1, 1, 2⟩ none
          [("a", .file .reg ⟨5, 2, 8⟩), ("b", .file .reg ⟨5, 2, 8⟩)])
        (InitDynamicArray 8 8) true).da.data =
      (InitDynamicArray 8 8).data ++ tl) ∧
    (dfs (fun _ => true) "d"
        (.dir ⟨1, 1, 2⟩ none
          [("a", .file .reg ⟨5, 2, 8⟩), ("b", .file .reg ⟨5, 2, 8⟩)])
        (InitDynamicArray 8 8) true).da.data.Nodup := by
  have h := c7_registry_invariant (fun _ => true)
  refine ⟨(h.1 (InitDynamicArray 8 8) 5).1 (by decide),
    h.2.1 (.dir ⟨1, 1, 2⟩ none
      [("a", .file .reg ⟨5, 2, 8⟩), ("b", .file .reg ⟨5, 2, 8⟩)]) "d"
      (InitDynamicArray 8 8) true,
    h.2.2 (.dir ⟨1, 1, 2⟩ none
      [("a", .file .reg ⟨5, 2, 8⟩), ("b", .file .reg ⟨5, 2, 8⟩)]) "d"
      (InitDynamicArray 8 8) true (by decide) (by decide)⟩

/-- C9: the include-files flag is output-only — for every root, tree,
registry state and allocation behaviour, the traversal's returned total,
final registry, error flag and stderr diagnostics are identical in
files-enabled and files-disabled mode, as is du's exit status. -/
theorem c9_mode_independent (allocOk : Nat → Bool) (p : String) (t : FSNode)
    (da : DynamicArray) :
    (dfs allocOk p t da true).total = (dfs allocOk p t da false).total ∧
    (dfs allocOk p t da true).da = (dfs allocOk p t da false).da ∧
    (dfs allocOk p t da true).err = (dfs allocOk p t da false).err ∧
    (dfs allocOk p t da true).diags = (dfs allocOk p t da false).diags ∧
    (du allocOk p t true).ret = (du allocOk p t false).ret := by
  obtain ⟨h1, h2, h3, h4⟩ := (mode_indep allocOk).1 t p da
  refine ⟨h1, h2, h3, h4, ?_⟩
  obtain ⟨_, _, h3i, _⟩ := (mode_indep allocOk).1 t p
    (InitDynamicArray kInitSize inoSize)
  simp [du, h3i]

/-- C1 counterexample: a traversal rooted directly at a regular file with
link count 2 counts and prints the file but never inserts its inode into the
registry (du.c:116-118 bypasses the hard-link logic of du.c:156-168), so the
claim's "inserted into the registry" fails for this traversal. -/
theorem c1_counterexample :
    (dfs (fun _ => true) "f" (.file .reg ⟨5, 2, 16⟩)
        (InitDynamicArray 8 8) true).total = 8 ∧
    (dfs (fun _ => true) "f" (.file .reg ⟨5, 2, 16⟩)
        (InitDynamicArray 8 8) true).out = [(8, "f")] ∧
    ¬ 5 ∈ (dfs (fun _ => true) "f" (.file .reg ⟨5, 2, 16⟩)
        (InitDynamicArray 8 8) true).da.data := by
  decide

/-- C1 amended: for a regular file with link count > 1 encountered as a
directory entry, a registry hit makes the entry a complete no-op (usage 0,
no record, no registry change); a registry miss with successful insertion
adds the inode, counts the usage once and prints the record exactly when
file-reporting is on; and registry membership persists through any further
traversal, so every later hard-linked path is a no-op.  (A traversal rooted
directly at the file itself bypasses the registry and prints
unconditionally.) -/
theorem c1_hardlink_once (allocOk : Nat → Bool) (p n : String) (m : FMeta)
    (rest : List (String × FSNode)) (da : DynamicArray) (incl : Bool)
    (hl : 1 < m.nlink) :
    (SearchInode da m.ino = true →
      dfsEntries allocOk p ((n, .file .reg m) :: rest) da incl =
        dfsEntries allocOk p rest da incl) ∧
    (¬ (n = "." ∨ n = "..") → SearchInode da m.ino = false →
      (InsertInode allocOk da m.ino).ok = true →
      (InsertInode allocOk da m.ino).da.data = da.data ++ [m.ino] ∧
      dfsEntries allocOk p ((n, .file .reg m) :: rest) da incl =
        { total := m.blocks / 2 + (dfsEntries allocOk p rest
            (InsertInode allocOk da m.ino).da incl).total,
          da := (dfsEntries allocOk p rest
            (InsertInode allocOk da m.ino).da incl).da,
          err := (dfsEntries allocOk p rest
            (InsertInode allocOk da m.ino).da incl).err,
          out := (if incl then [(m.blocks / 2, mkChildPath p n)] else []) ++
            (dfsEntries allocOk p rest
              (InsertInode allocOk da m.ino).da incl).out,
          diags := (dfsEntries allocOk p rest
            (InsertInode allocOk da m.ino).da incl).diags }) ∧
    (∀ (t : FSNode) (q : String), m.ino ∈ da.data →
      m.ino ∈ (dfs allocOk q t da incl).da.data) := by
  have hsn := snprintfRet_nonneg p n
  refine ⟨?_, ?_, ?_⟩
  · intro hs
    by_cases hname : n = "." ∨ n = ".."
    · simp [dfsEntries, hname]
    · simp [dfsEntries, hname, hsn, hl, hs]
  · intro hname hs hok
    refine ⟨(InsertInode_ok_data allocOk da m.ino hok).1, ?_⟩
    simp [dfsEntries, hname, hsn, hl, hs, hok]
  · intro t q hmem
    obtain ⟨tl, htl⟩ := (data_ext allocOk).1 t q da incl
    rw [htl]
    exact List.mem_append_left tl hmem

/-- C1 witness: inode 5 already seen makes entry "b" a no-op; on a fresh
registry the same entry is inserted, counted and printed; membership in the
registry persists through a further traversal. -/
theorem c1_witness :
    (dfsEntries (fun _ => true) "d" [("b", .file .reg ⟨5, 2, 16⟩)]
        ⟨8, 1, 64, [5]⟩ true =
      dfsEntries (fun _ => true) "d" [] ⟨8, 1, 64, [5]⟩ true) ∧
    ((InsertInode (fun _ => true) (InitDynamicArray 8 8) 5).da.data =
        (InitDynamicArray 8 8).data ++ [5] ∧
      dfsEntries (fun _ => true) "d" [("b", .file .reg ⟨5, 2, 16⟩)]
          (InitDynamicArray 8 8) true =
        { total := 8 + (dfsEntries (fun _ => true) "d" []
            (InsertInode (fun _ => true) (InitDynamicArray 8 8) 5).da
            true).total,
          da := (dfsEntries (fun _ => true) "d" []
            (InsertInode (fun _ => true) (InitDynamicArray 8 8) 5).da true).da,
          err := (dfsEntries (fun _ => true) "d" []
            (InsertInode (fun _ => true) (InitDynamicArray 8 8) 5).da
            true).err,
          out := (if true then [(8, mkChildPath "d" "b")] else []) ++
            (dfsEntries (fun _ => true) "d" []
              (InsertInode (fun _ => true) (InitDynamicArray 8 8) 5).da
              true).out,
          diags := (dfsEntries (fun _ => true) "d" []
            (InsertInode (fun _ => true) (InitDynamicArray 8 8) 5).da
            true).diags }) ∧
    5 ∈ (dfs (fun _ => true) "q" (.file .reg ⟨7, 1, 2⟩)
      ⟨8, 1, 64, [5]⟩ true).da.data := by
  refine ⟨(c1_hardlink_once (fun _ => true) "d" "b" ⟨5, 2, 16⟩ []
      ⟨8, 1, 64, [5]⟩ true (by decide)).1 (by decide),
    (c1_hardlink_once (fun _ => true) "d" "b" ⟨5, 2, 16⟩ []
      (InitDynamicArray 8 8) true (by decide)).2.1 (by decide) (by decide)
      (by decide),
    (c1_hardlink_once (fun _ => true) "d" "b" ⟨5, 2, 16⟩ []
      ⟨8, 1, 64, [5]⟩ true (by decide)).2.2 (.file .reg ⟨7, 1, 2⟩) "q"
      (by decide)⟩

/-- C2 counterexample: an error-free, hard-link-free directory holding one
symlink with 4 allocated blocks: the spec's sum over every entry is 3 KB but
dfs reports 1 KB — symlinks are never added to the total (no else branch at
du.c:151-170). -/
theorem c2_counterexample :
    errorFree (.dir ⟨1, 1, 2⟩ none [("s", .file .symlink ⟨2, 1, 4⟩)]) =
      true ∧
    noHardLinks (.dir ⟨1, 1, 2⟩ none [("s", .file .symlink ⟨2, 1, 4⟩)]) =
      true ∧
    sumAll (.dir ⟨1, 1, 2⟩ none [("s", .file .symlink ⟨2, 1, 4⟩)]) = 3 ∧
    (dfs (fun _ => true) "d"
        (.dir ⟨1, 1, 2⟩ none [("s", .file .symlink ⟨2, 1, 4⟩)])
        (InitDynamicArray 8 8) false).total = 1 := by
  decide

/-- C2 amended: for an error-free directory tree with no hard links and no
"." or ".." entries, the usage dfs reports for the root equals the sum of
the directories' and regular files' own allocated-block usage; symbolic
links and other non-regular, non-directory entries contribute nothing to
any total.  The registry is untouched and no error is reported. -/
theorem c2_counted_usage (allocOk : Nat → Bool) (p : String) (m : FMeta)
    (oe : Option Nat) (cs : List (String × FSNode)) (da : DynamicArray)
    (incl : Bool) (hef : errorFree (.dir m oe cs) = true)
    (hnh : noHardLinks (.dir m oe cs) = true)
    (hcn : cleanNames (.dir m oe cs) = true) :
    (dfs allocOk p (.dir m oe cs) da incl).total =
        countedSum (.dir m oe cs) ∧
      (dfs allocOk p (.dir m oe cs) da incl).da = da ∧
      (dfs allocOk p (.dir m oe cs) da incl).err = 0 := by
  have h := (total_counted allocOk).1 (.dir m oe cs) hef hnh hcn p da incl
  simpa [rootUsage, countedSum] using h

/-- C2 witness: a directory with a regular file, a symlink and a
subdirectory, evaluated: the total counts the directories and the regular
file only. -/
theorem c2_witness :
    (dfs (fun _ => true) "d"
        (.dir ⟨1, 1, 2⟩ none
          [("a", .file .reg ⟨2, 1, 8⟩), ("s", .file .symlink ⟨3, 1, 4⟩),
           ("e", .dir ⟨4, 2, 2⟩ none [("b", .file .reg ⟨6, 1, 6⟩)])])
        (InitDynamicArray 8 8) true).total =
      countedSum (.dir ⟨1, 1, 2⟩ none
        [("a", .file .reg ⟨2, 1, 8⟩), ("s", .file .symlink ⟨3, 1, 4⟩),
         ("e", .dir ⟨4, 2, 2⟩ none [("b", .file .reg ⟨6, 1, 6⟩)])]) ∧
    (dfs (fun _ => true) "d"
        (.dir ⟨1, 1, 2⟩ none
          [("a", .file .reg ⟨2, 1, 8⟩), ("s", .file .symlink ⟨3, 1, 4⟩),
           ("e", .dir ⟨4, 2, 2⟩ none [("b", .file .reg ⟨6, 1, 6⟩)])])
        (InitDynamicArray 8 8) true).err = 0 := by
  have h := c2_counted_usage (fun _ => true) "d" ⟨1, 1, 2⟩ none
    [("a", .file .reg ⟨2, 1, 8⟩), ("s", .file .symlink ⟨3, 1, 4⟩),
     ("e", .dir ⟨4, 2, 2⟩ none [("b", .file .reg ⟨6, 1, 6⟩)])]
    (InitDynamicArray 8 8) true (by decide) (by decide) (by decide)
  exact ⟨h.1, h.2.2⟩

/-- C4 counterexample: a traversal rooted at a regular file in files-disabled
mode still emits a record for that file (du.c:116-118 prints
unconditionally), so "never emits a record whose path is a regular file"
fails. -/
theorem c4_counterexample :
    (du (fun _ => true) "f" (.file .reg ⟨1, 1, 16⟩) false).out =
      [(8, "f")] := by
  decide

/-- C4 amended: for traversals rooted at a directory, files-disabled mode
emits only records carrying directory paths; files-enabled, error-free
traversals emit records whose paths are exactly the spec's post-order
emission list — one per directory and per non-duplicate non-directory
entry.  (A traversal rooted at a non-directory prints that root even in
files-disabled mode.) -/
theorem c4_emission (allocOk : Nat → Bool) :
    (∀ (m : FMeta) (oe : Option Nat) (cs : List (String × FSNode))
      (p : String) (da : DynamicArray) (x : Nat × String),
      x ∈ (dfs allocOk p (.dir m oe cs) da false).out →
      x.2 ∈ dirPaths p (.dir m oe cs)) ∧
    (∀ (t : FSNode) (p : String) (da : DynamicArray), WF da →
      (dfs allocOk p t da true).err = 0 →
      (dfs allocOk p t da true).out.map Prod.snd =
        (specEmits p t da.data).1) := by
  exact ⟨fun m oe cs p da x hx =>
      (out_dirs_only allocOk).1 (.dir m oe cs) m oe cs rfl p da x hx,
    fun t p da hwf herr => ((emits_spec allocOk).1 t p da hwf herr).1⟩

/-- C4 witness: on a concrete directory, the files-disabled record lands on
the directory path, and the files-enabled record paths equal the spec list. -/
theorem c4_witness :
    ((5 : Nat), "d").2 ∈ dirPaths "d"
      (.dir ⟨1, 1, 2⟩ none [("a", .file .reg ⟨2, 1, 8⟩)]) ∧
    (dfs (fun _ => true) "d"
        (.dir ⟨1, 1, 2⟩ none [("a", .file .reg ⟨2, 1, 8⟩)])
        (InitDynamicArray 8 8) true).out.map Prod.snd =
      (specEmits "d" (.dir ⟨1, 1, 2⟩ none [("a", .file .reg ⟨2, 1, 8⟩)])
        (InitDynamicArray 8 8).data).1 := by
  have h := c4_emission (fun _ => true)
  exact ⟨h.1 ⟨1, 1, 2⟩ none [("a", .file .reg ⟨2, 1, 8⟩)] "d"
      (InitDynamicArray 8 8) ((5 : Nat), "d") (by decide),
    h.2 (.dir ⟨1, 1, 2⟩ none [("a", .file .reg ⟨2, 1, 8⟩)]) "d"
      (InitDynamicArray 8 8) (by decide) (by decide)⟩

/-- C6, the code bug evaluated: a child whose constructed path is 602 bytes
(over the 512-byte buffer) is silently truncated to 511 characters — the
snprintf return check at du.c:138 can never be negative, so no
path-construction error is raised: the traversal finishes without error and
the emitted record carries the truncated path. -/
theorem c6_truncation_undetected :
    ¬ snprintfRet "d" (String.mk (List.replicate 600 'a')) < 0 ∧
    ("d" ++ "/" ++ String.mk (List.replicate 600 'a')).length = 602 ∧
    (mkChildPath "d" (String.mk (List.replicate 600 'a'))).length = 511 ∧
    (dfs (fun _ => true) "d"
        (.dir ⟨1, 1, 2⟩ none
          [(String.mk (List.replicate 600 'a'), .file .reg ⟨2, 1, 8⟩)])
        (InitDynamicArray 8 8) true).err = 0 ∧
    (dfs (fun _ => true) "d"
        (.dir ⟨1, 1, 2⟩ none
          [(String.mk (List.replicate 600 'a'), .file .reg ⟨2, 1, 8⟩)])
        (InitDynamicArray 8 8) true).out =
      [(4, mkChildPath "d" (String.mk (List.replicate 600 'a'))), (5, "d")] := by
  refine ⟨snprintfRet_nonneg _ _, ?_, ?_, ?_, ?_⟩ <;> decide

/-- C8 counterexample: a failing root stat writes a diagnostic naming the
path but not the system error, and a failing child stat writes a diagnostic
naming the system error but not the path — no diagnostic carries both. -/
theorem c8_counterexample :
    (dfs (fun _ => true) "x" (.statFail 1) (InitDynamicArray 8 8)
        false).err = 2 ∧
    (dfs (fun _ => true) "x" (.statFail 1) (InitDynamicArray 8 8)
        false).diags = [.statRootFail "x"] ∧
    Diag.namesSysError (.statRootFail "x") = false ∧
    (dfsEntries (fun _ => true) "d" [("c", .statFail 1)]
        (InitDynamicArray 8 8) false).diags = [.statChildFail 2] ∧
    Diag.namesPath (.statChildFail 2) = false := by
  decide

/-- C8 amended: every traversal error leaves at least one diagnostic on the
error stream (naming the path for root-stat and open failures, the system
error for child-stat failures, or the inode for insertion failures), and a
directory whose enumeration failed emits no usage record of its own. -/
theorem c8_error_diagnostic (allocOk : Nat → Bool) (incl : Bool) :
    (∀ (t : FSNode) (p : String) (da : DynamicArray),
      (dfs allocOk p t da incl).err ≠ 0 →
      (dfs allocOk p t da incl).diags ≠ []) ∧
    (∀ (p : String) (m : FMeta) (cs : List (String × FSNode))
      (da : DynamicArray),
      (dfsEntries allocOk p cs da incl).err ≠ 0 →
      (dfs allocOk p (.dir m none cs) da incl).out =
        (dfsEntries allocOk p cs da incl).out) := by
  exact ⟨fun t p da h => (err_diag allocOk).1 t p da incl h,
    fun p m cs da h => by rw [dfs_dir_err allocOk p m cs da incl h]⟩

/-- C8 witness: a directory whose only entry fails to stat, evaluated. -/
theorem c8_witness :
    (dfs (fun _ => true) "d"
        (.dir ⟨1, 1, 2⟩ none [("c", .statFail 1)])
        (InitDynamicArray 8 8) false).diags ≠ [] ∧
    (dfs (fun _ => true) "d"
        (.dir ⟨1, 1, 2⟩ none [("c", .statFail 1)])
        (InitDynamicArray 8 8) false).out =
      (dfsEntries (fun _ => true) "d" [("c", .statFail 1)]
        (InitDynamicArray 8 8) false).out := by
  have h := c8_error_diagnostic (fun _ => true) false
  exact ⟨h.1 (.dir ⟨1, 1, 2⟩ none [("c", .statFail 1)]) "d"
      (InitDynamicArray 8 8) (by decide),
    h.2 "d" ⟨1, 1, 2⟩ [("c", .statFail 1)] (InitDynamicArray 8 8)
      (by decide)⟩

/-- C10, the code bug evaluated: the registry starts with 8 elements of 8
bytes (64 bytes).  The first 8 insertions write in bounds.  The 9th calls
realloc(da->data, da->size * 2) — requesting 16 BYTES, not 16 elements —
sets the capacity field to 16, and then writes element index 8 (bytes
64..71) into a 16-byte allocation: out of bounds. -/
theorem c10_insert_out_of_bounds :
    (insertRun (fun _ => true) (InitDynamicArray 8 8)
      [1, 2, 3, 4, 5, 6, 7, 8]).2 = true ∧
    (insertRun (fun _ => true) (InitDynamicArray 8 8)
      [1, 2, 3, 4, 5, 6, 7, 8]).1.allocBytes = 64 ∧
    (insertRun (fun _ => true) (InitDynamicArray 8 8)
      [1, 2, 3, 4, 5, 6, 7, 8, 9]).1.size = 16 ∧
    (insertRun (fun _ => true) (InitDynamicArray 8 8)
      [1, 2, 3, 4, 5, 6, 7, 8, 9]).1.allocBytes = 16 ∧
    (insertRun (fun _ => true) (InitDynamicArray 8 8)
      [1, 2, 3, 4, 5, 6, 7, 8, 9]).2 = false := by
  decide

end Du
